import Mathlib

/-!
# ArTrackPerceptionModule: a shallow embedding and its verified properties

Embedding of `src/ArTrackPerceptionModule.cpp` (namespace `owds`).

Conventions of the embedding.

* C++ `double` values (confidence, marker size, the threshold `min_track_err_`,
  pose coordinates) are rationals: comparisons and the arithmetic
  `size / 100. / 2.` are exact, rounding is not modelled.
* The member tables are total functions into `Option` (`std::map`,
  `std::unordered_map`) and `Finset Nat` (`std::unordered_set<size_t>`).
* Everything the module consumes from outside (the tf2 buffer, the ontology,
  the robot agent, the `Pose` algebra of overworld) is a field of `Env`; one
  `Env` value describes what those services answer during one cycle, the same
  question getting the same answer within the cycle. From one cycle to the
  next the answers may change freely.
* A call that throws, or dereferences an end iterator or a null pointer, ends
  with a `Fault`; the state reached at that point is kept, as the C++ object
  keeps it. `only_transform_exception_escapes` shows that, from empty tables,
  the transform exception is the only fault that occurs.
* The percept class `Object` and `PointOfInterest` belong to overworld; their
  members used here are modelled from the specification of the module.
-/

namespace owds

/-! ## Messages -/

/-- Translation `(x, y, z)` and rotation quaternion `(qx, qy, qz, qw)`. -/
structure Pose where
  x : ℚ
  y : ℚ
  z : ℚ
  qx : ℚ
  qy : ℚ
  qz : ℚ
  qw : ℚ
deriving DecidableEq

/-- Message header: `std_msgs/Header` (frame name and time stamp). -/
structure Header where
  frame_id : String
  stamp : Nat
deriving DecidableEq

/-- Message `geometry_msgs::PoseStamped`. -/
structure PoseStamped where
  header : Header
  pose : Pose
deriving DecidableEq

/-- Message `geometry_msgs::TransformStamped`. -/
structure TransformStamped where
  header : Header
  child_frame_id : String
  transform : Pose
deriving DecidableEq

/-- Message `ar_track_alvar_msgs::AlvarMarker`: a raw marker detection. -/
structure AlvarMarker where
  header : Header
  id : Nat
  confidence : ℚ
  pose : PoseStamped
deriving DecidableEq

/-- Message `ar_track_alvar_msgs::AlvarVisibleMarker`: a visible-marker
observation, tied to its parent marker by `main_id`. -/
structure AlvarVisibleMarker where
  header : Header
  main_id : Nat
  id : Nat
  confidence : ℚ
  size : ℚ
  pose : PoseStamped
deriving DecidableEq

/-! ## Percepts -/

/-- Modelled from the spec: a point of interest of overworld (the class is not
part of this repository), a named list of sub-poses with a seen mark. -/
structure PointOfInterest where
  id : String
  points : List Pose
  seen : Bool
deriving DecidableEq

/-- The shape types that `createNewEntity` tells apart. -/
inductive ShapeType where
  | SHAPE_NONE
  | SHAPE_CUBE
  | SHAPE_OTHER
deriving DecidableEq

/-- The fields of `Shape_t` that `createNewEntity` touches. -/
structure Shape_t where
  type : ShapeType
  color : ℚ × ℚ × ℚ
  scale : ℚ × ℚ × ℚ
deriving DecidableEq

/-- Modelled from the spec: the percept class `Object` of overworld (not part
of this repository): symbolic id, current pose (`none` while the percept is
not located), shape, mass, the count of frames unseen (0 means seen this
cycle) and the points of interest. -/
structure Object where
  id : String
  pose : Option Pose
  shape : Option Shape_t
  mass : ℚ
  nb_frame_unseen : Nat
  points_of_interest : List PointOfInterest
deriving DecidableEq

namespace Object

/-- Modelled from the spec: `Object obj(id)`, a fresh percept: no pose, no
point of interest. -/
def mk_id (id : String) : Object :=
  { id := id, pose := none, shape := none, mass := 0, nb_frame_unseen := 0,
    points_of_interest := [] }

/-- Modelled from the spec: a percept is located when it has a pose. -/
def isLocated (o : Object) : Bool := o.pose.isSome

/-- Modelled from the spec: the frames-unseen counter. -/
def getNbFrameUnseen (o : Object) : Nat := o.nb_frame_unseen

/-- Modelled from the spec: marking a percept seen resets its frames-unseen
counter. -/
def setSeen (o : Object) : Object := { o with nb_frame_unseen := 0 }

/-- Modelled from the spec: marking a percept unseen counts one more frame
unseen. -/
def setUnseen (o : Object) : Object := { o with nb_frame_unseen := o.nb_frame_unseen + 1 }

/-- Modelled from the spec: a percept is marked seen when its frames-unseen
counter is 0. -/
def hasBeenSeen (o : Object) : Bool := o.nb_frame_unseen == 0

/-- Modelled from the spec: every point of interest of the percept is marked
unseen. -/
def setAllPoiUnseen (o : Object) : Object :=
  { o with points_of_interest := o.points_of_interest.map (fun p => { p with seen := false }) }

/-- Modelled from the spec: the pose of the percept is overwritten, and the
percept is located from then on. -/
def updatePose (o : Object) (p : Pose) : Object := { o with pose := some p }

/-- Modelled from the spec: one more point of interest on the percept. -/
def addPointOfInterest (o : Object) (p : PointOfInterest) : Object :=
  { o with points_of_interest := o.points_of_interest ++ [p] }

/-- Modelled from the spec: the shape attribute of the percept. -/
def setShape (o : Object) (sh : Shape_t) : Object := { o with shape := some sh }

/-- Modelled from the spec: the mass attribute of the percept. -/
def setMass (o : Object) (m : ℚ) : Object := { o with mass := m }

end Object

/-! ## Environment -/

/-- The head of the robot agent. -/
structure Head where
  isLocated : Bool
  hasMoved : Bool
  pose : Pose

/-- The robot agent: `getHead()` (null when `none`) and the containment test
of `getFieldOfView()`. -/
structure Agent where
  head : Option Head
  fieldOfViewHasIn : Pose → Bool

/-- What the external services answer during one cycle. `transform` and
`lookupTransform` answer `none` when tf2 throws a `tf2::TransformException`. -/
structure Env where
  robot_agent_ : Option Agent
  transform : PoseStamped → String → Option PoseStamped
  lookupTransform : String → String → Nat → Option TransformStamped
  doTransform : PoseStamped → TransformStamped → PoseStamped
  transformIn : Pose → Pose → Pose
  mul : Pose → Pose → Pose
  getFrom : String → String → List String
  getEntityShape : String → Shape_t
  getEntityColor : String → ℚ × ℚ × ℚ → ℚ × ℚ × ℚ
  getEntityMass : String → ℚ

/-! ## Module state -/

/-- The members of `ArTrackPerceptionModule` that the cycle reads and writes.
`onto_log` is not a member: it records, in order, the numeric ids for which
`createNewEntity` queried the ontology. -/
structure State where
  percepts_ : String → Option Object
  ids_map_ : Nat → Option String
  blacklist_ids_ : Finset Nat
  visible_markers_with_pois_ : Finset Nat
  min_track_err_ : ℚ
  onto_log : List Nat

/-- What ends a call early: a `tf2::TransformException`, the
`std::out_of_range` of `percepts_.at`, or the dereference of an end iterator
or of a null pointer. -/
inductive Fault where
  | transformException
  | outOfRange
  | undefinedBehaviour
deriving DecidableEq

/-- How a call of `perceptionCallback` ends. -/
inductive Outcome where
  | returned (b : Bool)
  | threw (f : Fault)
deriving DecidableEq

/-- Empty tables. -/
def State.init : State :=
  { percepts_ := fun _ => none, ids_map_ := fun _ => none, blacklist_ids_ := ∅,
    visible_markers_with_pois_ := ∅, min_track_err_ := 0, onto_log := [] }

/-- Function update, the write `m[k] = v` of a map. -/
def setAt {κ : Type} [DecidableEq κ] {ν : Type} (m : κ → Option ν) (k : κ) (v : ν) :
    κ → Option ν :=
  fun j => if j = k then some v else m j

/-- The write `m.insert({k, v})` of `std::map`: nothing happens when the key
is present. -/
def insertNew {κ : Type} [DecidableEq κ] {ν : Type} (m : κ → Option ν) (k : κ) (v : ν) :
    κ → Option ν :=
  fun j => if j = k then (match m k with | some w => some w | none => some v) else m j

/-- The statement `if (frame_id[0] == '/') frame_id = frame_id.substr(1);`. -/
def stripSlash (frame_id : String) : String :=
  match frame_id.data with
  | '/' :: rest => String.mk rest
  | _ => frame_id

/-- The constructor `Pose(geometry_msgs::PoseStamped)`. -/
def Pose.ofMsg (p : PoseStamped) : Pose := p.pose

/-- The constructor call `Pose({{x, y, z}}, {{0.0, 0.0, 0.0, 1.0}})`. -/
def Pose.ofTranslation (x y z : ℚ) : Pose :=
  { x := x, y := y, z := z, qx := 0, qy := 0, qz := 0, qw := 1 }

/-- Method `closeInitialization`: the part that touches the state. -/
def closeInitialization (s : State) : State × Bool :=
  ({ s with min_track_err_ := 2 / 10 }, true)

/-- Method `setParameter`; `stod` is `std::stod`. -/
def setParameter (stod : String → ℚ) (s : State) (parameter_name parameter_value : String) :
    State :=
  if parameter_name = "min_track_err" then { s with min_track_err_ := stod parameter_value }
  else s

/-- Method `headHasMoved`. -/
def headHasMoved (agent : Agent) : Bool :=
  match agent.head with
  | none => true
  | some head => if head.isLocated == false then true else head.hasMoved

/-- Method `isInValidArea`; `none` is the null dereference of `getHead()`. -/
def isInValidArea (env : Env) (agent : Agent) (tag_pose : Pose) : Option Bool :=
  match agent.head with
  | none => none
  | some head => some (agent.fieldOfViewHasIn (env.transformIn tag_pose head.pose))

/-! ## The cycle -/

/-- The copy `old_pose` of an observation's pose, its frame name without the
leading slash. -/
def strippedPose (vm : AlvarVisibleMarker) : PoseStamped :=
  { vm.pose with
    header := { vm.pose.header with frame_id := stripSlash vm.pose.header.frame_id } }

/-- The `Object` that `createNewEntity` builds for the symbolic id
`true_id[0]`. -/
def newObject (env : Env) (true_id0 : String) : Object :=
  let obj := Object.mk_id true_id0
  let shape := env.getEntityShape obj.id
  let shape : Shape_t :=
    if shape.type = ShapeType.SHAPE_NONE then
      { type := ShapeType.SHAPE_CUBE
        color := env.getEntityColor obj.id (1, 0, 0)
        scale := (5 / 100, 5 / 100, 3 / 1000) }
    else shape
  let obj := obj.setShape shape
  obj.setMass (env.getEntityMass obj.id)

/-- Method `createNewEntity`. -/
def createNewEntity (env : Env) (s : State) (marker : AlvarMarker) : State × Bool :=
  let true_id := env.getFrom "hasArId" ("real#" ++ toString marker.id)
  let s := { s with onto_log := s.onto_log ++ [marker.id] }
  match true_id with
  | [] => ({ s with blacklist_ids_ := insert marker.id s.blacklist_ids_ }, false)
  | true_id0 :: _ =>
    let obj := newObject env true_id0
    ({ s with ids_map_ := setAt s.ids_map_ marker.id true_id0
              percepts_ := insertNew s.percepts_ obj.id obj }, true)

/-- The read `ids_map_[id]` of `std::unordered_map`: a missing key is inserted
with the empty string. -/
def idsMapIndex (s : State) (id : Nat) : State × String :=
  match s.ids_map_ id with
  | some key => (s, key)
  | none => ({ s with ids_map_ := setAt s.ids_map_ id "" }, "")

/-- The third branch of the loop of `updateEntities`: an id without mapping is
resolved by `createNewEntity`; `false` is the `continue` taken when that
fails. -/
def resolved (env : Env) (s : State) (m : AlvarMarker) : State × Bool :=
  if s.ids_map_ m.id = none then createNewEntity env s m else (s, true)

/-- The body of the loop of `updateEntities`, for one raw detection. -/
def updateEntitiesBody (env : Env) (invalid_main_markers_ids : Finset Nat) (s : State)
    (main_marker : AlvarMarker) : State × Option Fault :=
  if main_marker.id ∈ s.blacklist_ids_ then (s, none)
  else if main_marker.id ∈ invalid_main_markers_ids then (s, none)
  else
    let created := resolved env s main_marker
    if created.2 = false then (created.1, none)
    else
      let indexed := idsMapIndex created.1 main_marker.id
      let s := indexed.1
      let it_obj := s.percepts_ indexed.2
      let frame_id := stripSlash main_marker.header.frame_id
      match env.lookupTransform "map" frame_id main_marker.header.stamp with
      | none => (s, none)
      | some to_map =>
        let marker_in_map := env.doTransform main_marker.pose to_map
        match it_obj with
        | none => (s, some Fault.undefinedBehaviour)
        | some obj =>
          ({ s with percepts_ := setAt s.percepts_ indexed.2 (obj.updatePose (Pose.ofMsg marker_in_map)) },
            none)

/-- Sequencing of statements: `next` runs in the state `r` left, unless `r`
ended with a fault. -/
def andThen (r : State × Option Fault) (next : State → State × Option Fault) :
    State × Option Fault :=
  match r.2 with
  | none => next r.1
  | some f => (r.1, some f)

/-- Run a loop body over a list, stopping at the first fault. -/
def forEach {α : Type} (body : State → α → State × Option Fault) :
    State → List α → State × Option Fault
  | s, [] => (s, none)
  | s, a :: as => andThen (body s a) (fun s1 => forEach body s1 as)

/-- Method `updateEntities`. -/
def updateEntities (env : Env) (s : State) (main_markers : List AlvarMarker)
    (invalid_main_markers_ids : Finset Nat) : State × Option Fault :=
  forEach (updateEntitiesBody env invalid_main_markers_ids) s main_markers

/-- Method `setAllPoiUnseen`. -/
def setAllPoiUnseen (s : State) : State :=
  { s with percepts_ := fun k => (s.percepts_ k).map (fun p => p.setAllPoiUnseen.setUnseen) }

/-- The five local offsets of `setPointOfInterest`, in the order of `sub_pois`. -/
def subPois (half_size : ℚ) : List Pose :=
  [Pose.ofTranslation 0 0 0,
   Pose.ofTranslation (-half_size) (-half_size) 0,
   Pose.ofTranslation half_size (-half_size) 0,
   Pose.ofTranslation half_size half_size 0,
   Pose.ofTranslation (-half_size) half_size 0]

/-- The `PointOfInterest` that `setPointOfInterest` builds. -/
def buildPoi (env : Env) (visible_marker : AlvarVisibleMarker)
    (map_to_visible_marker : Pose) (map_to_marked_object : Pose) : PointOfInterest :=
  let poi_id := "ar_" ++ toString visible_marker.id
  let half_size := visible_marker.size / 100 / 2
  let marker_in_marked_obj := env.transformIn map_to_visible_marker map_to_marked_object
  { id := poi_id
    points := (subPois half_size).map (fun sub_poi => env.mul marker_in_marked_obj sub_poi)
    seen := false }

/-- Method `setPointOfInterest`. -/
def setPointOfInterest (env : Env) (s : State) (visible_marker : AlvarVisibleMarker) :
    State × Option Fault :=
  match s.ids_map_ visible_marker.main_id with
  | none => (s, none)
  | some key =>
    let poi_id := "ar_" ++ toString visible_marker.id
    match s.percepts_ key with
    | none => (s, some Fault.undefinedBehaviour)
    | some obj =>
      match obj.pose with
      | none => (s, none)
      | some map_to_marked_object =>
        if obj.points_of_interest.any (fun poi => poi.id == poi_id) then (s, none)
        else
          let old_pose := strippedPose visible_marker
          match env.transform old_pose "map" with
          | none => (s, some Fault.transformException)
          | some map_to_visible_marker_g =>
            let p := buildPoi env visible_marker (Pose.ofMsg map_to_visible_marker_g)
              map_to_marked_object
            ({ s with percepts_ := setAt s.percepts_ key (obj.addPointOfInterest p) }, none)

/-- The validation pass of `perceptionCallback` (its first loop), from the
accumulators `(valid_visible_markers, invalid_main_markers_ids)`. -/
def validationPass (env : Env) (agent : Agent) (min_track_err_ : ℚ) :
    List AlvarVisibleMarker → List AlvarVisibleMarker × Finset Nat →
      Except Fault (List AlvarVisibleMarker × Finset Nat)
  | [], acc => Except.ok acc
  | visible_marker :: rest, acc =>
    let old_pose := strippedPose visible_marker
    match env.transform old_pose "map" with
    | none => Except.error Fault.transformException
    | some marker_pose =>
      match isInValidArea env agent (Pose.ofMsg marker_pose) with
      | none => Except.error Fault.undefinedBehaviour
      | some in_area =>
        if in_area = true ∧ visible_marker.confidence < min_track_err_ then
          validationPass env agent min_track_err_ rest (acc.1 ++ [visible_marker], acc.2)
        else
          validationPass env agent min_track_err_ rest (acc.1, insert visible_marker.main_id acc.2)

/-- The statement `percepts_.at(key).setSeen()`. -/
def setSeenAt (s : State) (key : String) : State × Option Fault :=
  match s.percepts_ key with
  | none => (s, some Fault.outOfRange)
  | some obj => ({ s with percepts_ := setAt s.percepts_ key obj.setSeen }, none)

/-- The first statement of the second loop of `perceptionCallback`: the
points of interest of an observation not yet recorded in
`visible_markers_with_pois_` whose parent id is mapped. -/
def attachPois (env : Env) (s : State) (visible_marker : AlvarVisibleMarker) :
    State × Option Fault :=
  if visible_marker.id ∉ s.visible_markers_with_pois_ ∧
      s.ids_map_ visible_marker.main_id ≠ none then
    andThen (setPointOfInterest env s visible_marker) (fun s1 =>
      ({ s1 with visible_markers_with_pois_ :=
                   insert visible_marker.id s1.visible_markers_with_pois_ }, none))
  else (s, none)

/-- The second statement of the second loop of `perceptionCallback`. -/
def markSeen (s : State) (visible_marker : AlvarVisibleMarker) : State × Option Fault :=
  match s.ids_map_ visible_marker.main_id with
  | none => (s, none)
  | some key => setSeenAt s key

/-- The body of the second loop of `perceptionCallback`, for one valid
observation. -/
def validLoopBody (env : Env) (s : State) (visible_marker : AlvarVisibleMarker) :
    State × Option Fault :=
  andThen (attachPois env s visible_marker) (fun s1 => markSeen s1 visible_marker)

/-- The body of the third loop of `perceptionCallback`, for one observation. -/
def seenLoopBody (s : State) (seen_visible_markers : AlvarVisibleMarker) :
    State × Option Fault :=
  match s.ids_map_ seen_visible_markers.main_id with
  | none => (s, none)
  | some key =>
    match s.percepts_ key with
    | none => (s, some Fault.outOfRange)
    | some obj => if obj.getNbFrameUnseen < 2 then setSeenAt s key else (s, none)

/-- The cycle after the validation pass: `updateEntities`, `setAllPoiUnseen`
and the two loops over the observations. -/
def processCycle (env : Env) (s : State) (markers : List AlvarMarker)
    (visible_markers valid_visible_markers : List AlvarVisibleMarker)
    (invalid_main_markers_ids : Finset Nat) : State × Option Fault :=
  andThen (updateEntities env s markers invalid_main_markers_ids) (fun s1 =>
    andThen (forEach (validLoopBody env) (setAllPoiUnseen s1) valid_visible_markers) (fun s3 =>
      forEach seenLoopBody s3 visible_markers))

/-- Method `perceptionCallback`. -/
def perceptionCallback (env : Env) (s : State) (markers : List AlvarMarker)
    (visible_markers : List AlvarVisibleMarker) : State × Outcome :=
  match env.robot_agent_ with
  | none => (s, Outcome.returned false)
  | some agent =>
    if headHasMoved agent then (s, Outcome.returned false)
    else
      match validationPass env agent s.min_track_err_ visible_markers ([], ∅) with
      | Except.error f => (s, Outcome.threw f)
      | Except.ok (valid_visible_markers, invalid_main_markers_ids) =>
        match processCycle env s markers visible_markers valid_visible_markers
            invalid_main_markers_ids with
        | (s4, some f) => (s4, Outcome.threw f)
        | (s4, none) => (s4, Outcome.returned true)

/-- One cycle: what the services answer and the two messages delivered. -/
structure Cycle where
  env : Env
  markers : List AlvarMarker
  visible_markers : List AlvarVisibleMarker

/-- A sequence of cycles, each starting in the state the previous one left. -/
def runCycles (s : State) : List Cycle → State
  | [] => s
  | c :: cs => runCycles (perceptionCallback c.env s c.markers c.visible_markers).1 cs

/-! ## Notions used by the statements -/

/-- The pose a symbolic id has in the percept table: `none` when there is no
such percept or when it is not located. -/
def poseOf (s : State) (key : String) : Option Pose :=
  (s.percepts_ key).bind Object.pose

/-- The relation between the state before and after any part of a cycle:
the tables only grow, and a numeric id enters at most one of blacklist and id
mapping. -/
structure Grows (s t : State) : Prop where
  ids : ∀ n k, s.ids_map_ n = some k → t.ids_map_ n = some k
  black : s.blacklist_ids_ ⊆ t.blacklist_ids_
  fresh : ∀ n, n ∈ t.blacklist_ids_ → n ∉ s.blacklist_ids_ →
    s.ids_map_ n = none ∧ t.ids_map_ n = none
  newIds : ∀ n, s.ids_map_ n = none → t.ids_map_ n ≠ none → n ∉ s.blacklist_ids_
  keys : ∀ k, s.percepts_ k ≠ none → t.percepts_ k ≠ none
  thr : t.min_track_err_ = s.min_track_err_
  pois : s.visible_markers_with_pois_ ⊆ t.visible_markers_with_pois_
  log : ∃ new, t.onto_log = s.onto_log ++ new ∧ ∀ n ∈ new, n ∉ s.blacklist_ids_

/-- The names of the points of interest of a percept, in order. -/
def poiIds (o : Object) : List String := o.points_of_interest.map PointOfInterest.id

/-- One entry of the percept table before and after the seen/unseen
bookkeeping: it is neither created nor deleted, its pose is kept and it loses
no point of interest. -/
def PerceptKept : Option Object → Option Object → Prop
  | none, none => True
  | some o, some o1 => o1.pose = o.pose ∧ ∀ name, name ∈ poiIds o → name ∈ poiIds o1
  | _, _ => False

/-- The relation between the state before and after any part of the cycle
that follows `updateEntities`. -/
structure Kept (s t : State) : Prop where
  ids : t.ids_map_ = s.ids_map_
  black : t.blacklist_ids_ = s.blacklist_ids_
  log : t.onto_log = s.onto_log
  thr : t.min_track_err_ = s.min_track_err_
  pois : s.visible_markers_with_pois_ ⊆ t.visible_markers_with_pois_
  perc : ∀ k, PerceptKept (s.percepts_ k) (t.percepts_ k)

/-- The precondition of a cycle is not met: no robot agent is bound, or the
agent has no head, or the head is not located, or the head reports that it
has moved. -/
def preconditionNotMet (env : Env) : Bool :=
  match env.robot_agent_ with
  | none => true
  | some agent =>
    match agent.head with
    | none => true
    | some head => !head.isLocated || head.hasMoved

/-- An observation is valid: its pose transformed into the frame `map` lies in
the field of view, tested in the frame of the head, and its confidence is
strictly below the threshold. -/
def observationValid (env : Env) (agent : Agent) (min_track_err_ : ℚ)
    (vm : AlvarVisibleMarker) : Bool :=
  match agent.head, env.transform (strippedPose vm) "map" with
  | some head, some marker_pose =>
    agent.fieldOfViewHasIn (env.transformIn marker_pose.pose head.pose) &&
      decide (vm.confidence < min_track_err_)
  | _, _ => false

/-- The tables are empty; the threshold is whatever `closeInitialization` or
`setParameter` left. -/
def State.empty (min_track_err_ : ℚ) : State :=
  { State.init with min_track_err_ := min_track_err_ }

/-! ## A concrete scene

A robot whose head is located and still, a field of view that contains every
pose, a transform service that answers with the identity, and an ontology that
knows the markers 5 (`"cube_A"`) and 6 (`"cube_B"`) and no other. -/

/-- The pose used throughout the scene: at `(1, 2, 3)`, not rotated. -/
def demoPose : Pose := { x := 1, y := 2, z := 3, qx := 0, qy := 0, qz := 0, qw := 1 }

/-- Composition of rigid poses: `q` expressed in the frame of `p`. The
rotation is the quaternion product, the translation is that of `p` plus that
of `q` rotated by `p`. -/
def composePose (p q : Pose) : Pose :=
  let cx := p.qy * q.z - p.qz * q.y
  let cy := p.qz * q.x - p.qx * q.z
  let cz := p.qx * q.y - p.qy * q.x
  { x := p.x + q.x + 2 * p.qw * cx + 2 * (p.qy * cz - p.qz * cy)
    y := p.y + q.y + 2 * p.qw * cy + 2 * (p.qz * cx - p.qx * cz)
    z := p.z + q.z + 2 * p.qw * cz + 2 * (p.qx * cy - p.qy * cx)
    qx := p.qw * q.qx + p.qx * q.qw + p.qy * q.qz - p.qz * q.qy
    qy := p.qw * q.qy - p.qx * q.qz + p.qy * q.qw + p.qz * q.qx
    qz := p.qw * q.qz + p.qx * q.qy - p.qy * q.qx + p.qz * q.qw
    qw := p.qw * q.qw - p.qx * q.qx - p.qy * q.qy - p.qz * q.qz }

def demoHeader : Header := { frame_id := "/camera", stamp := 0 }

def demoAgent : Agent :=
  { head := some { isLocated := true, hasMoved := false, pose := demoPose }
    fieldOfViewHasIn := fun _ => true }

def demoEnv : Env :=
  { robot_agent_ := some demoAgent
    transform := fun p _ => some p
    lookupTransform := fun _ _ _ =>
      some { header := demoHeader, child_frame_id := "camera", transform := demoPose }
    doTransform := fun p _ => p
    transformIn := fun p _ => p
    mul := composePose
    getFrom := fun _ v =>
      if v = "real#5" then ["cube_A"] else if v = "real#6" then ["cube_B"] else []
    getEntityShape := fun _ => { type := ShapeType.SHAPE_NONE, color := (0, 0, 0), scale := (0, 0, 0) }
    getEntityColor := fun _ d => d
    getEntityMass := fun _ => 1 }

/-- The same scene while `transform` fails (tf2 throws) and `lookupTransform`
still succeeds. -/
def demoEnvNoTransform : Env :=
  { demoEnv with transform := fun _ _ => none }

/-- The same scene while only `lookupTransform` fails. -/
def demoEnvNoLookup : Env :=
  { demoEnv with lookupTransform := fun _ _ _ => none }

/-- The same scene without a robot agent. -/
def demoEnvNoAgent : Env :=
  { demoEnv with robot_agent_ := none }

/-- A raw detection of marker `id`. -/
def demoMarker (id : Nat) : AlvarMarker :=
  { header := demoHeader, id := id, confidence := 0,
    pose := { header := demoHeader, pose := demoPose } }

/-- An observation `id` of the parent marker `main_id`, of size 10 cm. -/
def demoVisible (main_id id : Nat) (confidence : ℚ) : AlvarVisibleMarker :=
  { header := demoHeader, main_id := main_id, id := id, confidence := confidence, size := 10,
    pose := { header := demoHeader, pose := demoPose } }

/-- The state after `closeInitialization`, with empty tables. -/
def demoState : State := (closeInitialization State.init).1

/-- How the percept table changes between two states, entry by entry: an
entry is never deleted, an entry that was there changes along `Q`, and an
entry that appears satisfies `N`. -/
def Stepwise (Q : Object → Object → Prop) (N : Object → Prop) (s t : State) : Prop :=
  ∀ k, (∀ o, s.percepts_ k = some o → ∃ o1, t.percepts_ k = some o1 ∧ Q o o1) ∧
    (s.percepts_ k = none → ∀ o1, t.percepts_ k = some o1 → N o1)

/-- What `updateEntities` may do to a percept: its frames-unseen counter and
its points of interest stay. -/
def UpdateStep (o o1 : Object) : Prop :=
  o1.nb_frame_unseen = o.nb_frame_unseen ∧ o1.points_of_interest = o.points_of_interest

/-- A percept created by `updateEntities` has no point of interest. -/
def NewPercept (o1 : Object) : Prop := o1.points_of_interest = []

/-- What the two loops over the observations may do to a percept: it is
marked seen or its counter stays, and the names of its points of interest stay
distinct if they were. -/
def SeenStep (o o1 : Object) : Prop :=
  (o1.nb_frame_unseen = o.nb_frame_unseen ∨ o1.nb_frame_unseen = 0) ∧
    ((poiIds o).Nodup → (poiIds o1).Nodup)

/-- No percept holds two points of interest of the same name. -/
def PoisDistinct (s : State) : Prop :=
  ∀ k o, s.percepts_ k = some o → (poiIds o).Nodup

/-- Every symbolic id in the id mapping is a key of the percept table. -/
def Linked (s : State) : Prop :=
  ∀ n k, s.ids_map_ n = some k → s.percepts_ k ≠ none

/-- The percept `"cube_A"` of the concrete scene once it is located: the state
of the table entry after a first cycle that detected marker 5. -/
def demoObject : Object :=
  { id := "cube_A", pose := some demoPose,
    shape := some { type := ShapeType.SHAPE_CUBE, color := (1, 0, 0),
                    scale := (5 / 100, 5 / 100, 3 / 1000) },
    mass := 1, nb_frame_unseen := 1, points_of_interest := [] }

/-- The state of the concrete scene after a first cycle that detected marker 5
and no observation. -/
def demoLocated : State :=
  (perceptionCallback demoEnv demoState [demoMarker 5] []).1

/-- The state of the concrete scene after a first cycle that detected marker 5
and its observation 3. -/
def demoAttached : State :=
  (perceptionCallback demoEnv demoState [demoMarker 5] [demoVisible 5 3 (1 / 10)]).1

/-- The point of interest that observation 3 leaves on `"cube_A"`. -/
def demoPoi : PointOfInterest :=
  { id := "ar_3"
    points :=
      [{ x := 1, y := 2, z := 3, qx := 0, qy := 0, qz := 0, qw := 1 },
       { x := 19 / 20, y := 39 / 20, z := 3, qx := 0, qy := 0, qz := 0, qw := 1 },
       { x := 21 / 20, y := 39 / 20, z := 3, qx := 0, qy := 0, qz := 0, qw := 1 },
       { x := 21 / 20, y := 41 / 20, z := 3, qx := 0, qy := 0, qz := 0, qw := 1 },
       { x := 19 / 20, y := 41 / 20, z := 3, qx := 0, qy := 0, qz := 0, qw := 1 }]
    seen := false }

/-- The state of the concrete scene after a second cycle that detected marker
5 and no observation: `"cube_A"` has been unseen for one frame. -/
def demoUnseenOnce : State :=
  (perceptionCallback demoEnv demoAttached [demoMarker 5] []).1

/-- The state of the concrete scene after a first cycle in which marker 5 was
resolved, its `lookupTransform` failed and its observation 3 was valid:
`"cube_A"` exists without a pose. -/
def demoUnlocated : State :=
  (perceptionCallback demoEnvNoLookup demoState [demoMarker 5] [demoVisible 5 3 (1 / 10)]).1

/-- The percept `"cube_A"` of the concrete scene once it is located, seen and
holds the point of interest of observation 3. -/
def demoObjectWithPoi : Object :=
  { demoObject with nb_frame_unseen := 0, points_of_interest := [demoPoi] }

/-- A statement ended without a fault, or with the transform exception. -/
def TransformOnly : Option Fault → Prop
  | none => True
  | some f => f = Fault.transformException

/-! ## How the tables evolve -/

theorem grows_refl (s : State) : Grows s s where
  ids := fun _ _ h => h
  black := Finset.Subset.refl _
  fresh := fun _ h1 h2 => absurd h1 h2
  newIds := fun _ h1 h2 => absurd h1 h2
  keys := fun _ h => h
  thr := rfl
  pois := Finset.Subset.refl _
  log := ⟨[], by simp, by simp⟩

theorem grows_trans {s t u : State} (h1 : Grows s t) (h2 : Grows t u) : Grows s u where
  ids := fun n k h => h2.ids n k (h1.ids n k h)
  black := Finset.Subset.trans h1.black h2.black
  fresh := by
    intro n hu hs
    by_cases ht : n ∈ t.blacklist_ids_
    · obtain ⟨a, b⟩ := h1.fresh n ht hs
      refine ⟨a, ?_⟩
      by_contra hc
      exact h2.newIds n b hc ht
    · obtain ⟨a, b⟩ := h2.fresh n hu ht
      refine ⟨?_, b⟩
      cases hsn : s.ids_map_ n with
      | none => rfl
      | some k => rw [h1.ids n k hsn] at a; cases a
  newIds := by
    intro n hs hu
    cases ht : t.ids_map_ n with
    | none => exact fun hb => h2.newIds n ht hu (h1.black hb)
    | some k => exact h1.newIds n hs (by rw [ht]; simp)
  keys := fun k h => h2.keys k (h1.keys k h)
  thr := by rw [h2.thr, h1.thr]
  pois := Finset.Subset.trans h1.pois h2.pois
  log := by
    obtain ⟨n1, e1, p1⟩ := h1.log
    obtain ⟨n2, e2, p2⟩ := h2.log
    refine ⟨n1 ++ n2, by rw [e2, e1, List.append_assoc], ?_⟩
    intro n hn
    rcases List.mem_append.mp hn with h | h
    · exact p1 n h
    · exact fun hb => p2 n h (h1.black hb)

theorem andThen_none (r : State × Option Fault) (next : State → State × Option Fault)
    (h : r.2 = none) : andThen r next = next r.1 := by
  simp [andThen, h]

theorem andThen_some (r : State × Option Fault) (next : State → State × Option Fault)
    (f : Fault) (h : r.2 = some f) : andThen r next = (r.1, some f) := by
  simp [andThen, h]

/-- A completed sequence completed both of its parts. -/
theorem andThen_done {r : State × Option Fault} {next : State → State × Option Fault}
    {t : State} (h : andThen r next = (t, none)) : r.2 = none ∧ next r.1 = (t, none) := by
  cases h2 : r.2 with
  | none => rw [andThen_none r next h2] at h; exact ⟨rfl, h⟩
  | some f => rw [andThen_some r next f h2] at h; cases h

theorem andThen_rel (R : State → State → Prop) (htrans : ∀ s t u, R s t → R t u → R s u)
    {s : State} {r : State × Option Fault} {next : State → State × Option Fault}
    (h1 : R s r.1) (h2 : ∀ s1, R s1 (next s1).1) : R s (andThen r next).1 := by
  cases h : r.2 with
  | none => rw [andThen_none r next h]; exact htrans _ _ _ h1 (h2 r.1)
  | some f => rw [andThen_some r next f h]; exact h1

/-- A property kept by every run of the loop body is kept by the loop. -/
theorem forEach_rel {α : Type} (body : State → α → State × Option Fault)
    (R : State → State → Prop) (hrefl : ∀ s, R s s)
    (htrans : ∀ s t u, R s t → R t u → R s u)
    (hbody : ∀ s a, R s (body s a).1) :
    ∀ (l : List α) (s : State), R s (forEach body s l).1 := by
  intro l
  induction l with
  | nil => intro s; exact hrefl s
  | cons a as ih =>
    intro s
    exact andThen_rel R htrans (hbody s a) ih

theorem createNewEntity_nil (env : Env) (s : State) (marker : AlvarMarker)
    (h : env.getFrom "hasArId" ("real#" ++ toString marker.id) = []) :
    createNewEntity env s marker =
      ({ s with onto_log := s.onto_log ++ [marker.id]
                blacklist_ids_ := insert marker.id s.blacklist_ids_ }, false) := by
  simp [createNewEntity, h]

theorem newObject_id (env : Env) (k : String) : (newObject env k).id = k := rfl

theorem newObject_pose (env : Env) (k : String) : (newObject env k).pose = none := rfl

theorem newObject_pois (env : Env) (k : String) : (newObject env k).points_of_interest = [] := rfl

theorem newObject_unseen (env : Env) (k : String) : (newObject env k).nb_frame_unseen = 0 := rfl

theorem createNewEntity_cons (env : Env) (s : State) (marker : AlvarMarker) (k : String)
    (ks : List String) (h : env.getFrom "hasArId" ("real#" ++ toString marker.id) = k :: ks) :
    createNewEntity env s marker =
      ({ s with onto_log := s.onto_log ++ [marker.id]
                ids_map_ := setAt s.ids_map_ marker.id k
                percepts_ := insertNew s.percepts_ k (newObject env k) }, true) := by
  simp [createNewEntity, h, newObject_id]

theorem setAt_same {κ : Type} [DecidableEq κ] {ν : Type} (m : κ → Option ν) (k : κ) (v : ν) :
    setAt m k v k = some v := by
  simp [setAt]

theorem setAt_other {κ : Type} [DecidableEq κ] {ν : Type} (m : κ → Option ν) (k : κ) (v : ν)
    (j : κ) (h : j ≠ k) : setAt m k v j = m j := by
  simp [setAt, h]

theorem setAt_ne_none {κ : Type} [DecidableEq κ] {ν : Type} (m : κ → Option ν) (k : κ) (v : ν)
    (j : κ) (h : m j ≠ none) : setAt m k v j ≠ none := by
  unfold setAt
  split
  · simp
  · exact h

theorem insertNew_ne_none {κ : Type} [DecidableEq κ] {ν : Type} (m : κ → Option ν) (k : κ)
    (v : ν) (j : κ) (h : m j ≠ none) : insertNew m k v j ≠ none := by
  unfold insertNew
  split
  · split <;> simp
  · exact h

theorem createNewEntity_grows (env : Env) (s : State) (marker : AlvarMarker)
    (hb : marker.id ∉ s.blacklist_ids_) (hi : s.ids_map_ marker.id = none) :
    Grows s (createNewEntity env s marker).1 := by
  cases hq : env.getFrom "hasArId" ("real#" ++ toString marker.id) with
  | nil =>
    rw [createNewEntity_nil env s marker hq]
    refine ⟨fun _ _ h => h, ?_, ?_, ?_, fun _ h => h, rfl, Finset.Subset.refl _, ?_⟩
    · simp
    · intro n h1 h2
      simp only [Finset.mem_insert] at h1
      rcases h1 with h1 | h1
      · subst h1; exact ⟨hi, hi⟩
      · exact absurd h1 h2
    · intro n h1 h2; exact absurd h1 h2
    · exact ⟨[marker.id], rfl, by simpa using hb⟩
  | cons k ks =>
    rw [createNewEntity_cons env s marker k ks hq]
    refine ⟨?_, Finset.Subset.refl _, fun _ h1 h2 => absurd h1 h2, ?_, ?_, rfl,
      Finset.Subset.refl _, ?_⟩
    · intro n k1 h
      simp only [setAt]
      split
      · next hn => subst hn; rw [hi] at h; cases h
      · exact h
    · intro n h1 h2
      simp only [setAt] at h2
      split at h2
      · next hn => subst hn; exact hb
      · exact absurd h1 h2
    · intro k1 h
      exact insertNew_ne_none _ _ _ _ h
    · exact ⟨[marker.id], rfl, by simpa using hb⟩

theorem createNewEntity_true_ids (env : Env) (s : State) (marker : AlvarMarker)
    (h : (createNewEntity env s marker).2 = true) :
    ∃ k, (createNewEntity env s marker).1.ids_map_ marker.id = some k ∧
      (createNewEntity env s marker).1.percepts_ k ≠ none := by
  cases hq : env.getFrom "hasArId" ("real#" ++ toString marker.id) with
  | nil => rw [createNewEntity_nil env s marker hq] at h; cases h
  | cons k ks =>
    rw [createNewEntity_cons env s marker k ks hq]
    refine ⟨k, by simp [setAt], ?_⟩
    simp only [insertNew, if_true]
    split <;> simp

theorem resolved_grows (env : Env) (s : State) (m : AlvarMarker)
    (hb : m.id ∉ s.blacklist_ids_) : Grows s (resolved env s m).1 := by
  unfold resolved
  split
  · next hi => exact createNewEntity_grows env s m hb hi
  · exact grows_refl s

theorem resolved_true_ids (env : Env) (s : State) (m : AlvarMarker)
    (h : (resolved env s m).2 = true) :
    ∃ k, (resolved env s m).1.ids_map_ m.id = some k := by
  unfold resolved at h ⊢
  split
  · next hi =>
    rw [if_pos hi] at h
    obtain ⟨k, hk, _⟩ := createNewEntity_true_ids env s m h
    exact ⟨k, hk⟩
  · next hi =>
    cases hs : s.ids_map_ m.id with
    | none => exact absurd hs hi
    | some k => exact ⟨k, rfl⟩

theorem updateEntitiesBody_grows (env : Env) (inv : Finset Nat) (s : State) (m : AlvarMarker) :
    Grows s (updateEntitiesBody env inv s m).1 := by
  unfold updateEntitiesBody
  by_cases hb : m.id ∈ s.blacklist_ids_
  · simp only [hb, if_true]; exact grows_refl s
  by_cases hv : m.id ∈ inv
  · simp only [hb, hv, if_true, if_false]; exact grows_refl s
  simp only [hb, hv, if_false]
  have hg := resolved_grows env s m hb
  have hr := resolved_true_ids env s m
  generalize resolved env s m = c at hg hr
  by_cases hc : c.2 = false
  · simp only [hc, if_true]; exact hg
  simp only [hc, if_false]
  obtain ⟨k, hk⟩ := hr (by simpa using hc)
  simp only [idsMapIndex, hk]
  cases hl : env.lookupTransform "map" (stripSlash m.header.frame_id) m.header.stamp with
  | none => exact hg
  | some to_map =>
    cases hp : c.1.percepts_ k with
    | none => exact hg
    | some obj =>
      refine grows_trans hg ⟨fun _ _ h => h, Finset.Subset.refl _, fun _ h1 h2 => absurd h1 h2,
        fun _ h1 h2 => absurd h1 h2, ?_, rfl, Finset.Subset.refl _, ⟨[], by simp, by simp⟩⟩
      intro k1 h
      exact setAt_ne_none _ _ _ _ h

theorem updateEntities_grows (env : Env) (s : State) (ms : List AlvarMarker) (inv : Finset Nat) :
    Grows s (updateEntities env s ms inv).1 :=
  forEach_rel _ Grows (grows_refl) (fun _ _ _ => grows_trans)
    (fun s a => updateEntitiesBody_grows env inv s a) ms s

theorem perceptKept_refl (a : Option Object) : PerceptKept a a := by
  cases a with
  | none => trivial
  | some o => exact ⟨rfl, fun _ h => h⟩

theorem perceptKept_trans {a b c : Option Object} (h1 : PerceptKept a b) (h2 : PerceptKept b c) :
    PerceptKept a c := by
  cases a <;> cases b <;> cases c <;> simp only [PerceptKept] at h1 h2 ⊢
  exact ⟨h2.1.trans h1.1, fun n h => h2.2 n (h1.2 n h)⟩

theorem kept_refl (s : State) : Kept s s :=
  ⟨rfl, rfl, rfl, rfl, Finset.Subset.refl _, fun _ => perceptKept_refl _⟩

theorem kept_trans {s t u : State} (h1 : Kept s t) (h2 : Kept t u) : Kept s u :=
  ⟨h2.ids.trans h1.ids, h2.black.trans h1.black, h2.log.trans h1.log, h2.thr.trans h1.thr,
    Finset.Subset.trans h1.pois h2.pois, fun k => perceptKept_trans (h1.perc k) (h2.perc k)⟩

theorem kept_poseOf {s t : State} (h : Kept s t) (k : String) : poseOf t k = poseOf s k := by
  have hk := h.perc k
  unfold poseOf
  cases hs : s.percepts_ k <;> cases ht : t.percepts_ k <;> rw [hs, ht] at hk <;>
    simp only [PerceptKept] at hk
  simp [hk.1]

theorem kept_grows {s t : State} (h : Kept s t) : Grows s t where
  ids := fun n k hn => by rw [h.ids]; exact hn
  black := by rw [h.black]
  fresh := fun n h1 h2 => by rw [h.black] at h1; exact absurd h1 h2
  newIds := fun n h1 h2 => by rw [h.ids] at h2; exact absurd h1 h2
  keys := fun k hk => by
    have hp := h.perc k
    cases hs : s.percepts_ k <;> cases ht : t.percepts_ k <;> rw [hs, ht] at hp <;>
      simp only [PerceptKept] at hp
    · exact absurd hs hk
    · simp
  thr := h.thr
  pois := h.pois
  log := ⟨[], by simp [h.log], by simp⟩

/-- Replacing one entry of the percept table by a percept with the same pose
and at least the same points of interest. -/
theorem kept_setAt (s : State) (key : String) (o o1 : Object) (hs : s.percepts_ key = some o)
    (hpose : o1.pose = o.pose) (hpoi : ∀ name, name ∈ poiIds o → name ∈ poiIds o1) :
    Kept s { s with percepts_ := setAt s.percepts_ key o1 } := by
  refine ⟨rfl, rfl, rfl, rfl, Finset.Subset.refl _, ?_⟩
  intro k
  by_cases hk : k = key
  · subst hk
    simp only [setAt_same, hs, PerceptKept]
    exact ⟨hpose, hpoi⟩
  · simp only [setAt_other _ _ _ _ hk]
    exact perceptKept_refl _

theorem setAllPoiUnseen_kept (s : State) : Kept s (setAllPoiUnseen s) := by
  refine ⟨rfl, rfl, rfl, rfl, Finset.Subset.refl _, ?_⟩
  intro k
  unfold setAllPoiUnseen
  cases hs : s.percepts_ k with
  | none => simp only [hs, Option.map_none', PerceptKept]
  | some o =>
    simp only [hs, Option.map_some', PerceptKept]
    refine ⟨rfl, ?_⟩
    intro name hn
    simpa [poiIds, Object.setUnseen, Object.setAllPoiUnseen, Function.comp_def] using hn

theorem setPointOfInterest_unknown (env : Env) (s : State) (vm : AlvarVisibleMarker)
    (hi : s.ids_map_ vm.main_id = none) : setPointOfInterest env s vm = (s, none) := by
  simp [setPointOfInterest, hi]

theorem setPointOfInterest_dangling (env : Env) (s : State) (vm : AlvarVisibleMarker)
    (key : String) (hi : s.ids_map_ vm.main_id = some key) (hp : s.percepts_ key = none) :
    setPointOfInterest env s vm = (s, some Fault.undefinedBehaviour) := by
  simp [setPointOfInterest, hi, hp]

theorem setPointOfInterest_unlocated (env : Env) (s : State) (vm : AlvarVisibleMarker)
    (key : String) (obj : Object) (hi : s.ids_map_ vm.main_id = some key)
    (hp : s.percepts_ key = some obj) (hl : obj.pose = none) :
    setPointOfInterest env s vm = (s, none) := by
  simp [setPointOfInterest, hi, hp, hl]

theorem setPointOfInterest_present (env : Env) (s : State) (vm : AlvarVisibleMarker)
    (key : String) (obj : Object) (hi : s.ids_map_ vm.main_id = some key)
    (hp : s.percepts_ key = some obj)
    (hd : ("ar_" ++ toString vm.id) ∈ poiIds obj) :
    setPointOfInterest env s vm = (s, none) := by
  cases hl : obj.pose with
  | none => exact setPointOfInterest_unlocated env s vm key obj hi hp hl
  | some pose =>
    have : (obj.points_of_interest.any fun poi => poi.id == "ar_" ++ toString vm.id) = true := by
      simp only [poiIds, List.mem_map] at hd
      obtain ⟨poi, h1, h2⟩ := hd
      simp only [List.any_eq_true, beq_iff_eq]
      exact ⟨poi, h1, h2⟩
    simp [setPointOfInterest, hi, hp, hl, this]

theorem setPointOfInterest_throws (env : Env) (s : State) (vm : AlvarVisibleMarker)
    (key : String) (obj : Object) (pose : Pose) (hi : s.ids_map_ vm.main_id = some key)
    (hp : s.percepts_ key = some obj) (hl : obj.pose = some pose)
    (hd : ("ar_" ++ toString vm.id) ∉ poiIds obj)
    (ht : env.transform (strippedPose vm) "map" = none) :
    setPointOfInterest env s vm = (s, some Fault.transformException) := by
  have : ¬ (obj.points_of_interest.any fun poi => poi.id == "ar_" ++ toString vm.id) = true := by
    intro h
    simp only [List.any_eq_true, beq_iff_eq] at h
    obtain ⟨poi, h1, h2⟩ := h
    exact hd (by simp only [poiIds, List.mem_map]; exact ⟨poi, h1, h2⟩)
  simp [setPointOfInterest, hi, hp, hl, this, ht]

theorem setPointOfInterest_attach (env : Env) (s : State) (vm : AlvarVisibleMarker)
    (key : String) (obj : Object) (pose : Pose) (g : PoseStamped)
    (hi : s.ids_map_ vm.main_id = some key)
    (hp : s.percepts_ key = some obj) (hl : obj.pose = some pose)
    (hd : ("ar_" ++ toString vm.id) ∉ poiIds obj)
    (ht : env.transform (strippedPose vm) "map" = some g) :
    setPointOfInterest env s vm =
      ({ s with percepts_ := setAt s.percepts_ key
                  (obj.addPointOfInterest (buildPoi env vm (Pose.ofMsg g) pose)) }, none) := by
  have : ¬ (obj.points_of_interest.any fun poi => poi.id == "ar_" ++ toString vm.id) = true := by
    intro h
    simp only [List.any_eq_true, beq_iff_eq] at h
    obtain ⟨poi, h1, h2⟩ := h
    exact hd (by simp only [poiIds, List.mem_map]; exact ⟨poi, h1, h2⟩)
  simp [setPointOfInterest, hi, hp, hl, this, ht]

theorem setPointOfInterest_kept (env : Env) (s : State) (vm : AlvarVisibleMarker) :
    Kept s (setPointOfInterest env s vm).1 := by
  cases hi : s.ids_map_ vm.main_id with
  | none => rw [setPointOfInterest_unknown env s vm hi]; exact kept_refl s
  | some key =>
    cases hp : s.percepts_ key with
    | none => rw [setPointOfInterest_dangling env s vm key hi hp]; exact kept_refl s
    | some obj =>
      cases hl : obj.pose with
      | none => rw [setPointOfInterest_unlocated env s vm key obj hi hp hl]; exact kept_refl s
      | some pose =>
        by_cases hd : ("ar_" ++ toString vm.id) ∈ poiIds obj
        · rw [setPointOfInterest_present env s vm key obj hi hp hd]; exact kept_refl s
        · cases ht : env.transform (strippedPose vm) "map" with
          | none =>
            rw [setPointOfInterest_throws env s vm key obj pose hi hp hl hd ht]
            exact kept_refl s
          | some g =>
            rw [setPointOfInterest_attach env s vm key obj pose g hi hp hl hd ht]
            refine kept_setAt s key obj _ hp rfl ?_
            intro name hn
            simp only [poiIds, Object.addPointOfInterest, List.map_append, List.mem_append]
            exact Or.inl hn

theorem setSeenAt_kept (s : State) (key : String) : Kept s (setSeenAt s key).1 := by
  unfold setSeenAt
  cases hp : s.percepts_ key with
  | none => exact kept_refl s
  | some obj => exact kept_setAt s key obj _ hp rfl (fun _ h => h)

theorem attachPois_kept (env : Env) (s : State) (vm : AlvarVisibleMarker) :
    Kept s (attachPois env s vm).1 := by
  unfold attachPois
  split
  · refine andThen_rel Kept (fun _ _ _ => kept_trans) (setPointOfInterest_kept env s vm) ?_
    intro s1
    exact ⟨rfl, rfl, rfl, rfl, Finset.subset_insert _ _, fun _ => perceptKept_refl _⟩
  · exact kept_refl s

theorem markSeen_kept (s : State) (vm : AlvarVisibleMarker) : Kept s (markSeen s vm).1 := by
  unfold markSeen
  split
  · exact kept_refl s
  · exact setSeenAt_kept s _

theorem validLoopBody_kept (env : Env) (s : State) (vm : AlvarVisibleMarker) :
    Kept s (validLoopBody env s vm).1 :=
  andThen_rel Kept (fun _ _ _ => kept_trans) (attachPois_kept env s vm)
    (fun s1 => markSeen_kept s1 vm)

theorem seenLoopBody_kept (s : State) (vm : AlvarVisibleMarker) :
    Kept s (seenLoopBody s vm).1 := by
  unfold seenLoopBody
  split
  · exact kept_refl s
  · split
    · exact kept_refl s
    · split
      · exact setSeenAt_kept s _
      · exact kept_refl s

theorem validLoop_kept (env : Env) (s : State) (l : List AlvarVisibleMarker) :
    Kept s (forEach (validLoopBody env) s l).1 :=
  forEach_rel _ Kept kept_refl (fun _ _ _ => kept_trans) (validLoopBody_kept env) l s

theorem seenLoop_kept (s : State) (l : List AlvarVisibleMarker) :
    Kept s (forEach seenLoopBody s l).1 :=
  forEach_rel _ Kept kept_refl (fun _ _ _ => kept_trans) seenLoopBody_kept l s

theorem laterPhases_kept (env : Env) (s1 : State) (vms valid : List AlvarVisibleMarker) :
    Kept s1 (andThen (forEach (validLoopBody env) (setAllPoiUnseen s1) valid) (fun s3 =>
      forEach seenLoopBody s3 vms)).1 :=
  kept_trans (setAllPoiUnseen_kept s1)
    (andThen_rel Kept (fun _ _ _ => kept_trans) (validLoop_kept env _ valid)
      (fun s3 => seenLoop_kept s3 vms))

theorem processCycle_kept (env : Env) (s : State) (markers : List AlvarMarker)
    (vms valid : List AlvarVisibleMarker) (rejected : Finset Nat) :
    Kept (updateEntities env s markers rejected).1
      (processCycle env s markers vms valid rejected).1 := by
  unfold processCycle
  cases h : (updateEntities env s markers rejected).2 with
  | none => rw [andThen_none _ _ h]; exact laterPhases_kept env _ vms valid
  | some f => rw [andThen_some _ _ f h]; exact kept_refl _

/-- A cycle that passes its precondition and its validation pass ends in the
state `processCycle` reaches. -/
theorem perceptionCallback_state (env : Env) (s : State) (markers : List AlvarMarker)
    (vms : List AlvarVisibleMarker) (agent : Agent) (valid : List AlvarVisibleMarker)
    (rejected : Finset Nat) (ha : env.robot_agent_ = some agent) (hh : headHasMoved agent = false)
    (hv : validationPass env agent s.min_track_err_ vms ([], ∅) = Except.ok (valid, rejected)) :
    (perceptionCallback env s markers vms).1 = (processCycle env s markers vms valid rejected).1 := by
  unfold perceptionCallback
  simp only [ha, hh, hv, Bool.false_eq_true, if_false]
  rcases processCycle env s markers vms valid rejected with ⟨s4, _ | f⟩ <;> rfl

theorem perceptionCallback_grows (env : Env) (s : State) (markers : List AlvarMarker)
    (vms : List AlvarVisibleMarker) : Grows s (perceptionCallback env s markers vms).1 := by
  cases ha : env.robot_agent_ with
  | none => simp only [perceptionCallback, ha]; exact grows_refl s
  | some agent =>
    cases hh : headHasMoved agent with
    | true => simp only [perceptionCallback, ha, hh, if_true]; exact grows_refl s
    | false =>
      cases hv : validationPass env agent s.min_track_err_ vms ([], ∅) with
      | error f =>
        simp only [perceptionCallback, ha, hh, hv, Bool.false_eq_true, if_false]
        exact grows_refl s
      | ok r =>
        obtain ⟨valid, rejected⟩ := r
        rw [perceptionCallback_state env s markers vms agent valid rejected ha hh hv]
        exact grows_trans (updateEntities_grows env s markers rejected)
          (kept_grows (processCycle_kept env s markers vms valid rejected))

theorem runCycles_grows (cs : List Cycle) : ∀ s : State, Grows s (runCycles s cs) := by
  induction cs with
  | nil => intro s; exact grows_refl s
  | cons c cs ih =>
    intro s
    exact grows_trans (perceptionCallback_grows c.env s c.markers c.visible_markers) (ih _)

theorem headHasMoved_eq (env : Env) (agent : Agent) (ha : env.robot_agent_ = some agent) :
    headHasMoved agent = preconditionNotMet env := by
  unfold headHasMoved preconditionNotMet
  rw [ha]
  cases hh : agent.head with
  | none => simp [hh]
  | some head =>
    cases h1 : head.isLocated <;> cases h2 : head.hasMoved <;> simp [hh, h1, h2]

theorem poseOf_insertNew (env : Env) (s : State) (k key : String) :
    (insertNew s.percepts_ k (newObject env k) key).bind Object.pose = poseOf s key := by
  unfold insertNew poseOf
  split
  · next h =>
    subst h
    cases hs : s.percepts_ key with
    | none => simp [newObject_pose]
    | some o => simp
  · rfl

theorem createNewEntity_poseOf (env : Env) (s : State) (m : AlvarMarker) (key : String) :
    poseOf (createNewEntity env s m).1 key = poseOf s key := by
  cases hq : env.getFrom "hasArId" ("real#" ++ toString m.id) with
  | nil => rw [createNewEntity_nil env s m hq]; rfl
  | cons k ks =>
    rw [createNewEntity_cons env s m k ks hq]
    exact poseOf_insertNew env s k key

theorem resolved_poseOf (env : Env) (s : State) (m : AlvarMarker) (key : String) :
    poseOf (resolved env s m).1 key = poseOf s key := by
  unfold resolved
  split
  · exact createNewEntity_poseOf env s m key
  · rfl

theorem createNewEntity_true_black (env : Env) (s : State) (m : AlvarMarker)
    (h : (createNewEntity env s m).2 = true) :
    (createNewEntity env s m).1.blacklist_ids_ = s.blacklist_ids_ := by
  cases hq : env.getFrom "hasArId" ("real#" ++ toString m.id) with
  | nil => rw [createNewEntity_nil env s m hq] at h; cases h
  | cons k ks => rw [createNewEntity_cons env s m k ks hq]

theorem resolved_true_black (env : Env) (s : State) (m : AlvarMarker)
    (h : (resolved env s m).2 = true) :
    (resolved env s m).1.blacklist_ids_ = s.blacklist_ids_ := by
  unfold resolved at h ⊢
  split
  · next hi => rw [if_pos hi] at h; exact createNewEntity_true_black env s m h
  · rfl

/-- What one run of the loop body of `updateEntities` needs to change a pose. -/
theorem updateEntitiesBody_pose (env : Env) (inv : Finset Nat) (s : State) (m : AlvarMarker)
    (key : String) (h : poseOf (updateEntitiesBody env inv s m).1 key ≠ poseOf s key) :
    (updateEntitiesBody env inv s m).1.ids_map_ m.id = some key ∧
      m.id ∉ s.blacklist_ids_ ∧ m.id ∉ (updateEntitiesBody env inv s m).1.blacklist_ids_ ∧
      m.id ∉ inv ∧
      (env.lookupTransform "map" (stripSlash m.header.frame_id) m.header.stamp).isSome = true := by
  unfold updateEntitiesBody at h ⊢
  by_cases hb : m.id ∈ s.blacklist_ids_
  · simp only [hb, if_true] at h; exact absurd rfl h
  by_cases hv : m.id ∈ inv
  · simp only [hb, hv, if_true, if_false] at h; exact absurd rfl h
  rw [if_neg hb, if_neg hv] at h ⊢
  have hp := resolved_poseOf env s m key
  have hr := resolved_true_ids env s m
  have hk := resolved_true_black env s m
  generalize resolved env s m = c at hp hr hk h ⊢
  by_cases hc : c.2 = false
  · rw [if_pos hc] at h; exact absurd hp h
  rw [if_neg hc] at h ⊢
  have hc1 : c.2 = true := by simpa using hc
  obtain ⟨k, hk1⟩ := hr hc1
  simp only [idsMapIndex, hk1] at h ⊢
  cases hl : env.lookupTransform "map" (stripSlash m.header.frame_id) m.header.stamp with
  | none => simp only [hl] at h; exact absurd hp h
  | some to_map =>
    simp only [hl] at h ⊢
    cases ho : c.1.percepts_ k with
    | none => simp only [ho] at h; exact absurd hp h
    | some obj =>
      simp only [ho] at h ⊢
      have hkey : key = k := by
        by_contra hne
        apply h
        rw [← hp]
        simp only [poseOf, setAt_other _ _ _ _ hne]
      subst hkey
      refine ⟨hk1, hb, ?_, hv, rfl⟩
      rw [hk hc1]; exact hb

/-- What `updateEntities` needs to change a pose: a raw detection that is
mapped to the percept, not blacklisted, not rejected, with a transform. -/
theorem forEach_updateEntitiesBody_pose (env : Env) (inv : Finset Nat) (key : String) :
    ∀ (ms : List AlvarMarker) (s : State),
      poseOf (forEach (updateEntitiesBody env inv) s ms).1 key ≠ poseOf s key →
      ∃ m ∈ ms, (forEach (updateEntitiesBody env inv) s ms).1.ids_map_ m.id = some key ∧
        m.id ∉ s.blacklist_ids_ ∧
        m.id ∉ (forEach (updateEntitiesBody env inv) s ms).1.blacklist_ids_ ∧ m.id ∉ inv ∧
        (env.lookupTransform "map" (stripSlash m.header.frame_id) m.header.stamp).isSome = true := by
  intro ms
  induction ms with
  | nil => intro s h; exact absurd rfl h
  | cons a as ih =>
    intro s h
    have hg1 := updateEntitiesBody_grows env inv s a
    have hb := updateEntitiesBody_pose env inv s a key
    unfold forEach at h ⊢
    cases h2 : (updateEntitiesBody env inv s a).2 with
    | some f =>
      rw [andThen_some _ _ f h2] at h ⊢
      obtain ⟨b1, b2, b3, b4, b5⟩ := hb h
      exact ⟨a, List.mem_cons_self _ _, b1, b2, b3, b4, b5⟩
    | none =>
      rw [andThen_none _ _ h2] at h ⊢
      have hg2 : Grows (updateEntitiesBody env inv s a).1
          (forEach (updateEntitiesBody env inv) (updateEntitiesBody env inv s a).1 as).1 :=
        forEach_rel _ Grows grows_refl (fun _ _ _ => grows_trans)
          (fun s a => updateEntitiesBody_grows env inv s a) as _
      by_cases hch : poseOf (updateEntitiesBody env inv s a).1 key = poseOf s key
      · rw [← hch] at h
        obtain ⟨m, hm, c1, c2, c3, c4, c5⟩ := ih _ h
        exact ⟨m, List.mem_cons_of_mem _ hm, c1, fun hx => c2 (hg1.black hx), c3, c4, c5⟩
      · obtain ⟨b1, b2, b3, b4, b5⟩ := hb hch
        refine ⟨a, List.mem_cons_self _ _, hg2.ids _ _ b1, b2, ?_, b4, b5⟩
        intro hx
        have := (hg2.fresh _ hx b3).1
        rw [b1] at this
        cases this

theorem headHasMoved_false_head (agent : Agent) (h : headHasMoved agent = false) :
    ∃ head, agent.head = some head := by
  unfold headHasMoved at h
  cases hh : agent.head with
  | none => rw [hh] at h; cases h
  | some head => exact ⟨head, rfl⟩

/-- The validation pass, from any accumulators, when every transform
succeeds: the valid observations are appended in input order, the parent ids
of the others are inserted. -/
theorem validationPass_acc (env : Env) (agent : Agent) (thr : ℚ) (head : Head)
    (hh : agent.head = some head) :
    ∀ (vms : List AlvarVisibleMarker) (acc : List AlvarVisibleMarker × Finset Nat),
      (∀ vm ∈ vms, env.transform (strippedPose vm) "map" ≠ none) →
      ∃ rejected, validationPass env agent thr vms acc =
          Except.ok (acc.1 ++ vms.filter (observationValid env agent thr), rejected) ∧
        ∀ n, n ∈ rejected ↔
          n ∈ acc.2 ∨ ∃ vm ∈ vms, observationValid env agent thr vm = false ∧ vm.main_id = n := by
  intro vms
  induction vms with
  | nil => intro acc _; exact ⟨acc.2, by simp [validationPass], by simp⟩
  | cons a as ih =>
    intro acc ht
    have hta := ht a (List.mem_cons_self _ _)
    have htas : ∀ vm ∈ as, env.transform (strippedPose vm) "map" ≠ none :=
      fun vm hvm => ht vm (List.mem_cons_of_mem _ hvm)
    cases hg : env.transform (strippedPose a) "map" with
    | none => exact absurd hg hta
    | some g =>
      have hval : observationValid env agent thr a =
          (agent.fieldOfViewHasIn (env.transformIn g.pose head.pose) &&
            decide (a.confidence < thr)) := by
        simp [observationValid, hh, hg]
      by_cases hc : agent.fieldOfViewHasIn (env.transformIn g.pose head.pose) = true ∧
          a.confidence < thr
      · have hv : observationValid env agent thr a = true := by
          rw [hval]; simp [hc.1, hc.2]
        obtain ⟨rej, e, p⟩ := ih (acc.1 ++ [a], acc.2) htas
        refine ⟨rej, ?_, ?_⟩
        · simp only [validationPass, hg, isInValidArea, hh, Pose.ofMsg, hc, and_self, if_true]
          rw [e]
          simp [List.filter_cons, hv]
        · intro n
          rw [p n]
          constructor
          · rintro (h | ⟨vm, h1, h2⟩)
            · exact Or.inl h
            · exact Or.inr ⟨vm, List.mem_cons_of_mem _ h1, h2⟩
          · rintro (h | ⟨vm, h1, h2⟩)
            · exact Or.inl h
            · rcases List.mem_cons.mp h1 with h3 | h3
              · subst h3; rw [hv] at h2; cases h2.1
              · exact Or.inr ⟨vm, h3, h2⟩
      · have hv : observationValid env agent thr a = false := by
          rw [hval]
          by_contra hx
          simp only [Bool.not_eq_false, Bool.and_eq_true, decide_eq_true_eq] at hx
          exact hc hx
        obtain ⟨rej, e, p⟩ := ih (acc.1, insert a.main_id acc.2) htas
        refine ⟨rej, ?_, ?_⟩
        · simp only [validationPass, hg, isInValidArea, hh, Pose.ofMsg, hc, if_false]
          rw [e]
          simp [List.filter_cons, hv]
        · intro n
          rw [p n]
          constructor
          · rintro (h | ⟨vm, h1, h2⟩)
            · rcases Finset.mem_insert.mp h with h3 | h3
              · exact Or.inr ⟨a, List.mem_cons_self _ _, hv, h3.symm⟩
              · exact Or.inl h3
            · exact Or.inr ⟨vm, List.mem_cons_of_mem _ h1, h2⟩
          · rintro (h | ⟨vm, h1, h2⟩)
            · exact Or.inl (Finset.mem_insert_of_mem h)
            · rcases List.mem_cons.mp h1 with h3 | h3
              · subst h3; exact Or.inl (by rw [← h2.2]; exact Finset.mem_insert_self _ _)
              · exact Or.inr ⟨vm, h3, h2⟩

/-- A validation pass that completes had every transform succeed. -/
theorem validationPass_ok_transforms (env : Env) (agent : Agent) (thr : ℚ) :
    ∀ (vms : List AlvarVisibleMarker) (acc r : List AlvarVisibleMarker × Finset Nat),
      validationPass env agent thr vms acc = Except.ok r →
      ∀ vm ∈ vms, env.transform (strippedPose vm) "map" ≠ none := by
  intro vms
  induction vms with
  | nil => intro _ _ _ vm hvm; cases hvm
  | cons a as ih =>
    intro acc r h vm hvm
    cases hg : env.transform (strippedPose a) "map" with
    | none => simp [validationPass, hg] at h
    | some g =>
      rcases List.mem_cons.mp hvm with h1 | h1
      · subst h1; rw [hg]; simp
      · simp only [validationPass, hg] at h
        cases hi : isInValidArea env agent (Pose.ofMsg g) with
        | none => simp [hi] at h
        | some b =>
          simp only [hi] at h
          split at h
          · exact ih _ _ h vm h1
          · exact ih _ _ h vm h1

/-! ## Percepts, entry by entry -/

theorem stepwise_refl (Q : Object → Object → Prop) (N : Object → Prop) (hrefl : ∀ o, Q o o)
    (s : State) : Stepwise Q N s s := by
  intro k
  refine ⟨fun o h => ⟨o, h, hrefl o⟩, ?_⟩
  intro h o1 h1
  rw [h] at h1
  cases h1

theorem stepwise_trans (Q : Object → Object → Prop) (N : Object → Prop)
    (htrans : ∀ a b c, Q a b → Q b c → Q a c) (hNQ : ∀ a b, N a → Q a b → N b)
    (s t u : State) (h1 : Stepwise Q N s t) (h2 : Stepwise Q N t u) : Stepwise Q N s u := by
  intro k
  constructor
  · intro o ho
    obtain ⟨o1, e1, q1⟩ := (h1 k).1 o ho
    obtain ⟨o2, e2, q2⟩ := (h2 k).1 o1 e1
    exact ⟨o2, e2, htrans _ _ _ q1 q2⟩
  · intro hn o2 e2
    cases ht : t.percepts_ k with
    | none => exact (h2 k).2 ht o2 e2
    | some o1 =>
      obtain ⟨o3, e3, q3⟩ := (h2 k).1 o1 ht
      rw [e2] at e3
      cases e3
      exact hNQ _ _ ((h1 k).2 hn o1 ht) q3

theorem stepwise_setAt (Q : Object → Object → Prop) (N : Object → Prop) (hrefl : ∀ o, Q o o)
    (s : State) (key : String) (o o1 : Object) (hs : s.percepts_ key = some o) (hq : Q o o1)
    (t : State) (ht : t.percepts_ = setAt s.percepts_ key o1) : Stepwise Q N s t := by
  intro k
  rw [ht]
  by_cases hk : k = key
  · subst hk
    rw [setAt_same]
    refine ⟨?_, ?_⟩
    · intro o2 h2
      rw [hs] at h2
      cases h2
      exact ⟨o1, rfl, hq⟩
    · intro hn
      rw [hs] at hn
      cases hn
  · rw [setAt_other _ _ _ _ hk]
    exact stepwise_refl Q N hrefl s k

theorem stepwise_same (Q : Object → Object → Prop) (N : Object → Prop) (hrefl : ∀ o, Q o o)
    (s t : State) (ht : t.percepts_ = s.percepts_) : Stepwise Q N s t := by
  intro k
  rw [ht]
  exact stepwise_refl Q N hrefl s k

theorem updateStep_refl (o : Object) : UpdateStep o o := ⟨rfl, rfl⟩

theorem updateStep_trans (a b c : Object) (h1 : UpdateStep a b) (h2 : UpdateStep b c) :
    UpdateStep a c := ⟨h2.1.trans h1.1, h2.2.trans h1.2⟩

theorem newPercept_step (a b : Object) (h1 : NewPercept a) (h2 : UpdateStep a b) :
    NewPercept b := h2.2.trans h1

theorem seenStep_refl (o : Object) : SeenStep o o := ⟨Or.inl rfl, fun h => h⟩

theorem seenStep_trans (a b c : Object) (h1 : SeenStep a b) (h2 : SeenStep b c) :
    SeenStep a c := by
  refine ⟨?_, fun h => h2.2 (h1.2 h)⟩
  rcases h2.1 with h | h
  · rcases h1.1 with h3 | h3
    · exact Or.inl (h.trans h3)
    · exact Or.inr (h.trans h3)
  · exact Or.inr h

theorem createNewEntity_step (env : Env) (s : State) (m : AlvarMarker) :
    Stepwise UpdateStep NewPercept s (createNewEntity env s m).1 := by
  cases hq : env.getFrom "hasArId" ("real#" ++ toString m.id) with
  | nil =>
    rw [createNewEntity_nil env s m hq]
    exact stepwise_same _ _ updateStep_refl _ _ rfl
  | cons k0 ks =>
    rw [createNewEntity_cons env s m k0 ks hq]
    intro k
    simp only [insertNew]
    by_cases hk : k = k0
    · subst hk
      simp only [if_true]
      constructor
      · intro o ho
        rw [ho]
        exact ⟨o, rfl, updateStep_refl o⟩
      · intro hn o1 h1
        rw [hn] at h1
        simp only [Option.some.injEq] at h1
        rw [← h1]
        exact newObject_pois env k
    · simp only [hk, if_false]
      exact stepwise_refl _ _ updateStep_refl s k

theorem resolved_step (env : Env) (s : State) (m : AlvarMarker) :
    Stepwise UpdateStep NewPercept s (resolved env s m).1 := by
  unfold resolved
  split
  · exact createNewEntity_step env s m
  · exact stepwise_refl _ _ updateStep_refl s

theorem updateEntitiesBody_step (env : Env) (inv : Finset Nat) (s : State) (m : AlvarMarker) :
    Stepwise UpdateStep NewPercept s (updateEntitiesBody env inv s m).1 := by
  have hrefl := stepwise_refl UpdateStep NewPercept updateStep_refl
  unfold updateEntitiesBody
  by_cases hb : m.id ∈ s.blacklist_ids_
  · rw [if_pos hb]; exact hrefl s
  by_cases hv : m.id ∈ inv
  · rw [if_neg hb, if_pos hv]; exact hrefl s
  rw [if_neg hb, if_neg hv]
  have hg := resolved_step env s m
  have hr := resolved_true_ids env s m
  generalize resolved env s m = c at hg hr
  by_cases hc : c.2 = false
  · rw [if_pos hc]; exact hg
  rw [if_neg hc]
  obtain ⟨k, hk⟩ := hr (by simpa using hc)
  simp only [idsMapIndex, hk]
  cases hl : env.lookupTransform "map" (stripSlash m.header.frame_id) m.header.stamp with
  | none => exact hg
  | some to_map =>
    cases hp : c.1.percepts_ k with
    | none => exact hg
    | some obj =>
      exact stepwise_trans _ _ updateStep_trans newPercept_step _ _ _ hg
        (stepwise_setAt _ _ updateStep_refl c.1 k obj
          (obj.updatePose (Pose.ofMsg (env.doTransform m.pose to_map))) hp ⟨rfl, rfl⟩ _ rfl)

theorem updateEntities_step (env : Env) (s : State) (ms : List AlvarMarker) (inv : Finset Nat) :
    Stepwise UpdateStep NewPercept s (updateEntities env s ms inv).1 :=
  forEach_rel _ (Stepwise UpdateStep NewPercept) (stepwise_refl _ _ updateStep_refl)
    (stepwise_trans _ _ updateStep_trans newPercept_step)
    (fun s a => updateEntitiesBody_step env inv s a) ms s

theorem seenStep_stepwise_trans (s t u : State) (h1 : Stepwise SeenStep (fun _ => False) s t)
    (h2 : Stepwise SeenStep (fun _ => False) t u) : Stepwise SeenStep (fun _ => False) s u :=
  stepwise_trans _ _ seenStep_trans (fun _ _ h _ => h) s t u h1 h2

theorem setPointOfInterest_step (env : Env) (s : State) (vm : AlvarVisibleMarker) :
    Stepwise SeenStep (fun _ => False) s (setPointOfInterest env s vm).1 := by
  have hrefl := stepwise_refl SeenStep (fun _ => False) seenStep_refl
  cases hi : s.ids_map_ vm.main_id with
  | none => rw [setPointOfInterest_unknown env s vm hi]; exact hrefl s
  | some key =>
    cases hp : s.percepts_ key with
    | none => rw [setPointOfInterest_dangling env s vm key hi hp]; exact hrefl s
    | some obj =>
      cases hl : obj.pose with
      | none => rw [setPointOfInterest_unlocated env s vm key obj hi hp hl]; exact hrefl s
      | some pose =>
        by_cases hd : ("ar_" ++ toString vm.id) ∈ poiIds obj
        · rw [setPointOfInterest_present env s vm key obj hi hp hd]; exact hrefl s
        · cases ht : env.transform (strippedPose vm) "map" with
          | none =>
            rw [setPointOfInterest_throws env s vm key obj pose hi hp hl hd ht]
            exact hrefl s
          | some g =>
            rw [setPointOfInterest_attach env s vm key obj pose g hi hp hl hd ht]
            refine stepwise_setAt _ _ seenStep_refl s key obj
              (obj.addPointOfInterest (buildPoi env vm (Pose.ofMsg g) pose)) hp
              ⟨Or.inl rfl, ?_⟩ _ rfl
            intro hn
            simp only [poiIds, Object.addPointOfInterest, List.map_append, List.map_cons,
              List.map_nil]
            refine List.Nodup.append hn (List.nodup_singleton _) ?_
            intro a ha hb
            rw [List.mem_singleton] at hb
            subst hb
            exact hd ha

theorem setSeenAt_step (s : State) (key : String) :
    Stepwise SeenStep (fun _ => False) s (setSeenAt s key).1 := by
  unfold setSeenAt
  cases hp : s.percepts_ key with
  | none => exact stepwise_refl _ _ seenStep_refl s
  | some obj =>
    exact stepwise_setAt _ _ seenStep_refl s key obj obj.setSeen hp ⟨Or.inr rfl, fun h => h⟩ _ rfl

theorem attachPois_step (env : Env) (s : State) (vm : AlvarVisibleMarker) :
    Stepwise SeenStep (fun _ => False) s (attachPois env s vm).1 := by
  unfold attachPois
  split
  · exact andThen_rel _ seenStep_stepwise_trans (setPointOfInterest_step env s vm)
      (fun s1 => stepwise_same _ _ seenStep_refl _ _ rfl)
  · exact stepwise_refl _ _ seenStep_refl s

theorem markSeen_step (s : State) (vm : AlvarVisibleMarker) :
    Stepwise SeenStep (fun _ => False) s (markSeen s vm).1 := by
  unfold markSeen
  split
  · exact stepwise_refl _ _ seenStep_refl s
  · exact setSeenAt_step s _

theorem validLoopBody_step (env : Env) (s : State) (vm : AlvarVisibleMarker) :
    Stepwise SeenStep (fun _ => False) s (validLoopBody env s vm).1 :=
  andThen_rel _ seenStep_stepwise_trans (attachPois_step env s vm) (fun s1 => markSeen_step s1 vm)

theorem seenLoopBody_step (s : State) (vm : AlvarVisibleMarker) :
    Stepwise SeenStep (fun _ => False) s (seenLoopBody s vm).1 := by
  unfold seenLoopBody
  split
  · exact stepwise_refl _ _ seenStep_refl s
  · split
    · exact stepwise_refl _ _ seenStep_refl s
    · split
      · exact setSeenAt_step s _
      · exact stepwise_refl _ _ seenStep_refl s

theorem validLoop_step (env : Env) (s : State) (l : List AlvarVisibleMarker) :
    Stepwise SeenStep (fun _ => False) s (forEach (validLoopBody env) s l).1 :=
  forEach_rel _ _ (stepwise_refl _ _ seenStep_refl) seenStep_stepwise_trans
    (validLoopBody_step env) l s

theorem seenLoop_step (s : State) (l : List AlvarVisibleMarker) :
    Stepwise SeenStep (fun _ => False) s (forEach seenLoopBody s l).1 :=
  forEach_rel _ _ (stepwise_refl _ _ seenStep_refl) seenStep_stepwise_trans
    seenLoopBody_step l s

theorem andThen_inv (P : State → Prop) {r : State × Option Fault}
    {next : State → State × Option Fault} (h1 : P r.1) (h2 : ∀ s1, P s1 → P (next s1).1) :
    P (andThen r next).1 := by
  cases h : r.2 with
  | none => rw [andThen_none r next h]; exact h2 _ h1
  | some f => rw [andThen_some r next f h]; exact h1

theorem poiIds_unseen (o : Object) : poiIds o.setAllPoiUnseen.setUnseen = poiIds o := by
  simp [poiIds, Object.setUnseen, Object.setAllPoiUnseen, Function.comp_def]

theorem poisDistinct_of_stepwise (Q : Object → Object → Prop) (N : Object → Prop)
    (hQ : ∀ o o1, Q o o1 → (poiIds o).Nodup → (poiIds o1).Nodup)
    (hN : ∀ o1, N o1 → (poiIds o1).Nodup) (s t : State) (h : Stepwise Q N s t)
    (hs : PoisDistinct s) : PoisDistinct t := by
  intro k o1 h1
  cases hk : s.percepts_ k with
  | none => exact hN o1 ((h k).2 hk o1 h1)
  | some o =>
    obtain ⟨o2, e2, q2⟩ := (h k).1 o hk
    rw [h1] at e2
    cases e2
    exact hQ o o1 q2 (hs k o hk)

theorem updateEntities_poisDistinct (env : Env) (s : State) (ms : List AlvarMarker)
    (inv : Finset Nat) (hs : PoisDistinct s) : PoisDistinct (updateEntities env s ms inv).1 :=
  poisDistinct_of_stepwise UpdateStep NewPercept
    (fun o o1 h hn => by unfold poiIds at hn ⊢; rw [h.2]; exact hn)
    (fun o1 h => by unfold poiIds; rw [h]; exact List.nodup_nil) _ _
    (updateEntities_step env s ms inv) hs

theorem setAllPoiUnseen_poisDistinct (s : State) (hs : PoisDistinct s) :
    PoisDistinct (setAllPoiUnseen s) := by
  intro k o1 h1
  unfold setAllPoiUnseen at h1
  cases hk : s.percepts_ k with
  | none => simp [hk] at h1
  | some o =>
    simp only [hk, Option.map_some', Option.some.injEq] at h1
    rw [← h1, poiIds_unseen]
    exact hs k o hk

theorem seenStep_poisDistinct (s t : State) (h : Stepwise SeenStep (fun _ => False) s t)
    (hs : PoisDistinct s) : PoisDistinct t :=
  poisDistinct_of_stepwise SeenStep (fun _ => False) (fun _ _ h hn => h.2 hn)
    (fun _ h => h.elim) s t h hs

theorem processCycle_poisDistinct (env : Env) (s : State) (markers : List AlvarMarker)
    (vms valid : List AlvarVisibleMarker) (rejected : Finset Nat) (hs : PoisDistinct s) :
    PoisDistinct (processCycle env s markers vms valid rejected).1 := by
  unfold processCycle
  refine andThen_inv PoisDistinct (updateEntities_poisDistinct env s markers rejected hs) ?_
  intro s1 h1
  refine andThen_inv PoisDistinct ?_ ?_
  · exact seenStep_poisDistinct _ _ (validLoop_step env _ valid)
      (setAllPoiUnseen_poisDistinct s1 h1)
  · intro s3 h3
    exact seenStep_poisDistinct _ _ (seenLoop_step s3 vms) h3

/-- What a cycle does to the state, by the way it gets through its
precondition and its validation pass. -/
theorem perceptionCallback_cases (env : Env) (s : State) (markers : List AlvarMarker)
    (vms : List AlvarVisibleMarker) :
    (perceptionCallback env s markers vms).1 = s ∨
    ∃ agent valid rejected, env.robot_agent_ = some agent ∧ headHasMoved agent = false ∧
      validationPass env agent s.min_track_err_ vms ([], ∅) = Except.ok (valid, rejected) ∧
      (perceptionCallback env s markers vms).1 =
        (processCycle env s markers vms valid rejected).1 := by
  cases ha : env.robot_agent_ with
  | none => left; simp only [perceptionCallback, ha]
  | some agent =>
    cases hh : headHasMoved agent with
    | true => left; simp only [perceptionCallback, ha, hh, if_true]
    | false =>
      cases hv : validationPass env agent s.min_track_err_ vms ([], ∅) with
      | error f => left; simp only [perceptionCallback, ha, hh, hv, Bool.false_eq_true, if_false]
      | ok r =>
        obtain ⟨valid, rejected⟩ := r
        right
        exact ⟨agent, valid, rejected, rfl, hh, hv,
          perceptionCallback_state env s markers vms agent valid rejected ha hh hv⟩

theorem perceptionCallback_poisDistinct (env : Env) (s : State) (markers : List AlvarMarker)
    (vms : List AlvarVisibleMarker) (hs : PoisDistinct s) :
    PoisDistinct (perceptionCallback env s markers vms).1 := by
  rcases perceptionCallback_cases env s markers vms with h | ⟨_, valid, rejected, _, _, _, h⟩
  · rw [h]; exact hs
  · rw [h]; exact processCycle_poisDistinct env s markers vms valid rejected hs

theorem runCycles_poisDistinct (cs : List Cycle) :
    ∀ s : State, PoisDistinct s → PoisDistinct (runCycles s cs) := by
  induction cs with
  | nil => intro s hs; exact hs
  | cons c cs ih =>
    intro s hs
    exact ih _ (perceptionCallback_poisDistinct c.env s c.markers c.visible_markers hs)

theorem empty_poisDistinct (thr : ℚ) : PoisDistinct (State.empty thr) := by
  intro k o h
  simp [State.empty, State.init] at h

/-! ## Cycles that return -/

theorem perceptionCallback_returned_true (env : Env) (s : State) (markers : List AlvarMarker)
    (vms : List AlvarVisibleMarker)
    (h : (perceptionCallback env s markers vms).2 = Outcome.returned true) :
    ∃ agent valid rejected, env.robot_agent_ = some agent ∧ headHasMoved agent = false ∧
      validationPass env agent s.min_track_err_ vms ([], ∅) = Except.ok (valid, rejected) ∧
      processCycle env s markers vms valid rejected =
        ((perceptionCallback env s markers vms).1, none) := by
  unfold perceptionCallback at h ⊢
  cases ha : env.robot_agent_ with
  | none => simp [ha] at h
  | some agent =>
    cases hh : headHasMoved agent with
    | true => simp [ha, hh] at h
    | false =>
      simp only [ha, hh, Bool.false_eq_true, if_false] at h ⊢
      cases hv : validationPass env agent s.min_track_err_ vms ([], ∅) with
      | error f => simp [hv] at h
      | ok r =>
        obtain ⟨valid, rejected⟩ := r
        simp only [hv] at h ⊢
        refine ⟨agent, valid, rejected, rfl, hh, hv, ?_⟩
        rcases hp : processCycle env s markers vms valid rejected with ⟨s4, _ | f⟩
        · rfl
        · simp [hp] at h

theorem processCycle_done (env : Env) (s t : State) (markers : List AlvarMarker)
    (vms valid : List AlvarVisibleMarker) (rejected : Finset Nat)
    (h : processCycle env s markers vms valid rejected = (t, none)) :
    ∃ s1 s3, updateEntities env s markers rejected = (s1, none) ∧
      forEach (validLoopBody env) (setAllPoiUnseen s1) valid = (s3, none) ∧
      forEach seenLoopBody s3 vms = (t, none) := by
  unfold processCycle at h
  obtain ⟨h1, h2⟩ := andThen_done h
  obtain ⟨h3, h4⟩ := andThen_done h2
  exact ⟨_, _, Prod.ext rfl h1, Prod.ext rfl h3, h4⟩

/-- The valid list of a validation pass run where `perceptionCallback` runs
it: the observations that are valid, in input order. -/
theorem validationPass_valid (env : Env) (agent : Agent) (thr : ℚ)
    (vms valid : List AlvarVisibleMarker) (rejected : Finset Nat)
    (hh : headHasMoved agent = false)
    (hv : validationPass env agent thr vms ([], ∅) = Except.ok (valid, rejected)) :
    valid = vms.filter (observationValid env agent thr) := by
  obtain ⟨head, hhead⟩ := headHasMoved_false_head agent hh
  obtain ⟨rej, e, _⟩ := validationPass_acc env agent thr head hhead vms ([], ∅)
    (validationPass_ok_transforms env agent thr vms _ _ hv)
  rw [hv] at e
  simp only [List.nil_append, Except.ok.injEq, Prod.mk.injEq] at e
  exact e.1

/-! ## The seen marks -/

theorem setAllPoiUnseen_counter (s : State) (key : String) (o : Object)
    (h : s.percepts_ key = some o) :
    ∃ o1, (setAllPoiUnseen s).percepts_ key = some o1 ∧
      o1.nb_frame_unseen = o.nb_frame_unseen + 1 := by
  refine ⟨o.setAllPoiUnseen.setUnseen, ?_, rfl⟩
  simp [setAllPoiUnseen, h]

theorem setSeenAt_eq (s : State) (key : String) (o : Object) (h : s.percepts_ key = some o) :
    setSeenAt s key = ({ s with percepts_ := setAt s.percepts_ key o.setSeen }, none) := by
  simp [setSeenAt, h]

/-- The third loop marks seen every percept that an observation's parent id
maps to and whose counter is below 2 when the loop starts. -/
theorem seenLoop_marks (vm : AlvarVisibleMarker) (key : String) :
    ∀ (l : List AlvarVisibleMarker) (s t : State), forEach seenLoopBody s l = (t, none) →
      vm ∈ l → s.ids_map_ vm.main_id = some key →
      ∀ o, s.percepts_ key = some o → o.nb_frame_unseen < 2 →
      ∃ o1, t.percepts_ key = some o1 ∧ o1.nb_frame_unseen = 0 := by
  intro l
  induction l with
  | nil => intro s t _ hvm; cases hvm
  | cons a as ih =>
    intro s t h hvm hi o ho hlt
    unfold forEach at h
    obtain ⟨h1, h2⟩ := andThen_done h
    have hk := seenLoopBody_kept s a
    have hst := seenLoopBody_step s a
    by_cases hva : vm = a
    · subst hva
      have hbody : seenLoopBody s vm =
          ({ s with percepts_ := setAt s.percepts_ key o.setSeen }, none) := by
        unfold seenLoopBody
        simp only [hi, ho, Object.getNbFrameUnseen, hlt, if_true]
        exact setSeenAt_eq s key o ho
      rw [hbody] at h2
      have hrest := seenLoop_step
        { s with percepts_ := setAt s.percepts_ key o.setSeen } as
      rw [h2] at hrest
      obtain ⟨o2, e2, q2⟩ := (hrest key).1 o.setSeen (by simp [setAt_same])
      refine ⟨o2, e2, ?_⟩
      rcases q2.1 with q | q
      · rw [q]; rfl
      · exact q
    · have hmem : vm ∈ as := by
        rcases List.mem_cons.mp hvm with h3 | h3
        · exact absurd h3 hva
        · exact h3
      obtain ⟨o1, e1, q1⟩ := (hst key).1 o ho
      refine ih _ t h2 hmem (by rw [hk.ids]; exact hi) o1 e1 ?_
      rcases q1.1 with q | q
      · rw [q]; exact hlt
      · rw [q]; decide

/-! ## The points of interest of a valid observation -/

theorem setPointOfInterest_set (env : Env) (s : State) (vm : AlvarVisibleMarker) :
    (setPointOfInterest env s vm).1.visible_markers_with_pois_ =
      s.visible_markers_with_pois_ := by
  cases hi : s.ids_map_ vm.main_id with
  | none => rw [setPointOfInterest_unknown env s vm hi]
  | some key =>
    cases hp : s.percepts_ key with
    | none => rw [setPointOfInterest_dangling env s vm key hi hp]
    | some obj =>
      cases hl : obj.pose with
      | none => rw [setPointOfInterest_unlocated env s vm key obj hi hp hl]
      | some pose =>
        by_cases hd : ("ar_" ++ toString vm.id) ∈ poiIds obj
        · rw [setPointOfInterest_present env s vm key obj hi hp hd]
        · cases ht : env.transform (strippedPose vm) "map" with
          | none => rw [setPointOfInterest_throws env s vm key obj pose hi hp hl hd ht]
          | some g => rw [setPointOfInterest_attach env s vm key obj pose g hi hp hl hd ht]

theorem setSeenAt_set (s : State) (key : String) :
    (setSeenAt s key).1.visible_markers_with_pois_ = s.visible_markers_with_pois_ := by
  unfold setSeenAt
  split <;> rfl

theorem markSeen_set (s : State) (vm : AlvarVisibleMarker) :
    (markSeen s vm).1.visible_markers_with_pois_ = s.visible_markers_with_pois_ := by
  unfold markSeen
  split
  · rfl
  · exact setSeenAt_set s _

/-- A sub-id enters `visible_markers_with_pois_` in the second loop only as
the sub-id of the observation at hand, and only when its parent id is
mapped. -/
theorem validLoopBody_set (env : Env) (s : State) (a : AlvarVisibleMarker) (n : Nat)
    (h : n ∈ (validLoopBody env s a).1.visible_markers_with_pois_) :
    n ∈ s.visible_markers_with_pois_ ∨ (n = a.id ∧ s.ids_map_ a.main_id ≠ none) := by
  have hat : n ∈ (attachPois env s a).1.visible_markers_with_pois_ := by
    unfold validLoopBody at h
    cases h2 : (attachPois env s a).2 with
    | none => rw [andThen_none _ _ h2, markSeen_set] at h; exact h
    | some f => rw [andThen_some _ _ f h2] at h; exact h
  unfold attachPois at hat
  split at hat
  · next hc =>
    cases h2 : (setPointOfInterest env s a).2 with
    | none =>
      rw [andThen_none _ _ h2] at hat
      simp only [Finset.mem_insert, setPointOfInterest_set] at hat
      rcases hat with h3 | h3
      · exact Or.inr ⟨h3, hc.2⟩
      · exact Or.inl h3
    | some f =>
      rw [andThen_some _ _ f h2, setPointOfInterest_set] at hat
      exact Or.inl hat
  · exact Or.inl hat

theorem kept_has_poi {s t : State} (h : Kept s t) (key name : String)
    (hs : ∃ o, s.percepts_ key = some o ∧ name ∈ poiIds o) :
    ∃ o1, t.percepts_ key = some o1 ∧ name ∈ poiIds o1 := by
  obtain ⟨o, ho, hn⟩ := hs
  have hp := h.perc key
  rw [ho] at hp
  cases ht : t.percepts_ key with
  | none => rw [ht] at hp; simp only [PerceptKept] at hp
  | some o1 =>
    rw [ht] at hp
    simp only [PerceptKept] at hp
    exact ⟨o1, rfl, hp.2 name hn⟩

theorem kept_located {s t : State} (h : Kept s t) (key : String)
    (hs : ∃ o, s.percepts_ key = some o ∧ o.pose ≠ none) :
    ∃ o1, t.percepts_ key = some o1 ∧ o1.pose ≠ none := by
  obtain ⟨o, ho, hn⟩ := hs
  have hp := h.perc key
  rw [ho] at hp
  cases ht : t.percepts_ key with
  | none => rw [ht] at hp; simp only [PerceptKept] at hp
  | some o1 =>
    rw [ht] at hp
    simp only [PerceptKept] at hp
    exact ⟨o1, rfl, by rw [hp.1]; exact hn⟩

/-- A completed `setPointOfInterest` on a located percept leaves the point of
interest of the observation on it. -/
theorem setPointOfInterest_has_poi (env : Env) (s : State) (a : AlvarVisibleMarker)
    (key : String) (hi : s.ids_map_ a.main_id = some key)
    (hloc : ∃ o, s.percepts_ key = some o ∧ o.pose ≠ none)
    (hdone : (setPointOfInterest env s a).2 = none) :
    ∃ o1, (setPointOfInterest env s a).1.percepts_ key = some o1 ∧
      ("ar_" ++ toString a.id) ∈ poiIds o1 := by
  obtain ⟨obj, hp, hl⟩ := hloc
  cases hpose : obj.pose with
  | none => exact absurd hpose hl
  | some pose =>
    by_cases hd : ("ar_" ++ toString a.id) ∈ poiIds obj
    · rw [setPointOfInterest_present env s a key obj hi hp hd]
      exact ⟨obj, hp, hd⟩
    · cases ht : env.transform (strippedPose a) "map" with
      | none =>
        rw [setPointOfInterest_throws env s a key obj pose hi hp hpose hd ht] at hdone
        cases hdone
      | some g =>
        rw [setPointOfInterest_attach env s a key obj pose g hi hp hpose hd ht]
        refine ⟨_, setAt_same _ _ _, ?_⟩
        simp [poiIds, Object.addPointOfInterest, buildPoi]

/-- The second loop attaches the points of interest of an observation whose
sub-id is not yet in `visible_markers_with_pois_`, when the observations with
the same sub-id that come before it do not lead to another percept. -/
theorem validLoop_attaches (env : Env) (vm : AlvarVisibleMarker) (key : String) :
    ∀ (l : List AlvarVisibleMarker) (s t : State),
      forEach (validLoopBody env) s l = (t, none) → vm ∈ l →
      s.ids_map_ vm.main_id = some key →
      (∃ o, s.percepts_ key = some o ∧ o.pose ≠ none) →
      (∀ a ∈ l, a.id = vm.id →
        s.ids_map_ a.main_id = none ∨ s.ids_map_ a.main_id = some key) →
      vm.id ∉ s.visible_markers_with_pois_ →
      ∃ o1, t.percepts_ key = some o1 ∧ ("ar_" ++ toString vm.id) ∈ poiIds o1 := by
  intro l
  induction l with
  | nil => intro s t _ hvm; cases hvm
  | cons a as ih =>
    intro s t h hvm hi hloc hsame hnew
    unfold forEach at h
    obtain ⟨h1, h2⟩ := andThen_done h
    have hk := validLoopBody_kept env s a
    have hrest : Kept (validLoopBody env s a).1 t := by
      have := validLoop_kept env (validLoopBody env s a).1 as
      rw [h2] at this
      exact this
    by_cases hcase : a.id = vm.id ∧ s.ids_map_ a.main_id = some key
    · obtain ⟨hid, hia⟩ := hcase
      have hcond : a.id ∉ s.visible_markers_with_pois_ ∧ s.ids_map_ a.main_id ≠ none := by
        rw [hid, hia]; exact ⟨hnew, by simp⟩
      have hat2 : (attachPois env s a).2 = none := by
        unfold validLoopBody at h1
        cases hx : (attachPois env s a).2 with
        | none => rfl
        | some f => rw [andThen_some _ _ f hx] at h1; cases h1
      have hsp2 : (setPointOfInterest env s a).2 = none := by
        unfold attachPois at hat2
        rw [if_pos hcond] at hat2
        cases hx : (setPointOfInterest env s a).2 with
        | none => rfl
        | some f => rw [andThen_some _ _ f hx] at hat2; cases hat2
      have hpoi := setPointOfInterest_has_poi env s a key hia hloc hsp2
      rw [hid] at hpoi
      have hk1 : Kept (setPointOfInterest env s a).1 (validLoopBody env s a).1 := by
        unfold validLoopBody attachPois
        rw [if_pos hcond, andThen_none _ _ hsp2, andThen_none _ _ rfl]
        have hmid : Kept (setPointOfInterest env s a).1
            { (setPointOfInterest env s a).1 with
              visible_markers_with_pois_ :=
                insert a.id (setPointOfInterest env s a).1.visible_markers_with_pois_ } :=
          ⟨rfl, rfl, rfl, rfl, Finset.subset_insert _ _, fun _ => perceptKept_refl _⟩
        exact kept_trans hmid (markSeen_kept _ a)
      exact kept_has_poi (kept_trans hk1 hrest) key _ hpoi
    · have hne : vm ≠ a := by
        intro hx
        subst hx
        exact hcase ⟨rfl, hi⟩
      have hmem : vm ∈ as := by
        rcases List.mem_cons.mp hvm with h3 | h3
        · exact absurd h3 hne
        · exact h3
      refine ih _ t h2 hmem (by rw [hk.ids]; exact hi) (kept_located hk key hloc) ?_ ?_
      · intro b hb hbid
        rw [hk.ids]
        exact hsame b (List.mem_cons_of_mem _ hb) hbid
      · intro hin
        rcases validLoopBody_set env s a vm.id hin with h3 | ⟨h3, h4⟩
        · exact hnew h3
        · rcases hsame a (List.mem_cons_self _ _) h3.symm with h5 | h5
          · exact h4 h5
          · exact hcase ⟨h3.symm, h5⟩

theorem createNewEntity_set (env : Env) (s : State) (m : AlvarMarker) :
    (createNewEntity env s m).1.visible_markers_with_pois_ = s.visible_markers_with_pois_ := by
  cases hq : env.getFrom "hasArId" ("real#" ++ toString m.id) with
  | nil => rw [createNewEntity_nil env s m hq]
  | cons k ks => rw [createNewEntity_cons env s m k ks hq]

theorem updateEntitiesBody_set (env : Env) (inv : Finset Nat) (s : State) (m : AlvarMarker) :
    (updateEntitiesBody env inv s m).1.visible_markers_with_pois_ =
      s.visible_markers_with_pois_ := by
  unfold updateEntitiesBody
  by_cases hb : m.id ∈ s.blacklist_ids_
  · rw [if_pos hb]
  by_cases hv : m.id ∈ inv
  · rw [if_neg hb, if_pos hv]
  rw [if_neg hb, if_neg hv]
  have hg : (resolved env s m).1.visible_markers_with_pois_ = s.visible_markers_with_pois_ := by
    unfold resolved
    split
    · exact createNewEntity_set env s m
    · rfl
  generalize resolved env s m = c at hg
  by_cases hc : c.2 = false
  · rw [if_pos hc]; exact hg
  rw [if_neg hc]
  have hx : (idsMapIndex c.1 m.id).1.visible_markers_with_pois_ =
      s.visible_markers_with_pois_ := by
    unfold idsMapIndex
    split <;> exact hg
  generalize idsMapIndex c.1 m.id = d at hx
  dsimp only
  cases hl : env.lookupTransform "map" (stripSlash m.header.frame_id) m.header.stamp with
  | none => exact hx
  | some to_map =>
    dsimp only
    cases hp : d.1.percepts_ d.2 with
    | none => exact hx
    | some obj => exact hx

theorem updateEntities_set (env : Env) (s : State) (ms : List AlvarMarker) (inv : Finset Nat) :
    (updateEntities env s ms inv).1.visible_markers_with_pois_ =
      s.visible_markers_with_pois_ :=
  forEach_rel _ (fun s t => t.visible_markers_with_pois_ = s.visible_markers_with_pois_)
    (fun _ => rfl) (fun _ _ _ h1 h2 => h2.trans h1)
    (fun s a => updateEntitiesBody_set env inv s a) ms s

/-! ## Table lookups never fail -/

theorem andThen_guard (P : State → Prop) (F : Option Fault → Prop)
    {r : State × Option Fault} {next : State → State × Option Fault}
    (h1 : P r.1 ∧ F r.2) (h2 : ∀ s1, P s1 → P (next s1).1 ∧ F (next s1).2) :
    P (andThen r next).1 ∧ F (andThen r next).2 := by
  cases h : r.2 with
  | none => rw [andThen_none r next h]; exact h2 _ h1.1
  | some f => rw [andThen_some r next f h]; exact ⟨h1.1, by rw [← h]; exact h1.2⟩

theorem forEach_guard {α : Type} (body : State → α → State × Option Fault) (P : State → Prop)
    (F : Option Fault → Prop) (hF : F none)
    (hbody : ∀ s a, P s → P (body s a).1 ∧ F (body s a).2) :
    ∀ (l : List α) (s : State), P s → P (forEach body s l).1 ∧ F (forEach body s l).2 := by
  intro l
  induction l with
  | nil => intro s hs; exact ⟨hs, hF⟩
  | cons a as ih =>
    intro s hs
    exact andThen_guard P F (hbody s a hs) ih

theorem createNewEntity_linked (env : Env) (s : State) (m : AlvarMarker) (hs : Linked s) :
    Linked (createNewEntity env s m).1 := by
  cases hq : env.getFrom "hasArId" ("real#" ++ toString m.id) with
  | nil => rw [createNewEntity_nil env s m hq]; exact hs
  | cons k ks =>
    rw [createNewEntity_cons env s m k ks hq]
    intro n k1 h
    simp only [setAt] at h
    split at h
    · simp only [Option.some.injEq] at h
      subst h
      simp only [insertNew, if_true]
      split <;> simp
    · exact insertNew_ne_none _ _ _ _ (hs n k1 h)

theorem resolved_linked (env : Env) (s : State) (m : AlvarMarker) (hs : Linked s) :
    Linked (resolved env s m).1 := by
  unfold resolved
  split
  · exact createNewEntity_linked env s m hs
  · exact hs

theorem updateEntitiesBody_linked (env : Env) (inv : Finset Nat) (s : State) (m : AlvarMarker)
    (hs : Linked s) :
    Linked (updateEntitiesBody env inv s m).1 ∧ (updateEntitiesBody env inv s m).2 = none := by
  unfold updateEntitiesBody
  by_cases hb : m.id ∈ s.blacklist_ids_
  · rw [if_pos hb]; exact ⟨hs, rfl⟩
  by_cases hv : m.id ∈ inv
  · rw [if_neg hb, if_pos hv]; exact ⟨hs, rfl⟩
  rw [if_neg hb, if_neg hv]
  have hg := resolved_linked env s m hs
  have hr := resolved_true_ids env s m
  generalize resolved env s m = c at hg hr
  by_cases hc : c.2 = false
  · rw [if_pos hc]; exact ⟨hg, rfl⟩
  rw [if_neg hc]
  obtain ⟨k, hk⟩ := hr (by simpa using hc)
  simp only [idsMapIndex, hk]
  cases hl : env.lookupTransform "map" (stripSlash m.header.frame_id) m.header.stamp with
  | none => exact ⟨hg, rfl⟩
  | some to_map =>
    cases hp : c.1.percepts_ k with
    | none => exact absurd hp (hg _ _ hk)
    | some obj =>
      refine ⟨?_, rfl⟩
      intro n k1 h
      exact setAt_ne_none _ _ _ _ (hg n k1 h)

theorem kept_linked {s t : State} (h : Kept s t) (hs : Linked s) : Linked t := by
  intro n k hn
  rw [h.ids] at hn
  exact (kept_grows h).keys k (hs n k hn)

theorem setPointOfInterest_fault (env : Env) (s : State) (vm : AlvarVisibleMarker)
    (hs : Linked s) : TransformOnly (setPointOfInterest env s vm).2 := by
  cases hi : s.ids_map_ vm.main_id with
  | none => rw [setPointOfInterest_unknown env s vm hi]; trivial
  | some key =>
    cases hp : s.percepts_ key with
    | none => exact absurd hp (hs _ _ hi)
    | some obj =>
      cases hl : obj.pose with
      | none => rw [setPointOfInterest_unlocated env s vm key obj hi hp hl]; trivial
      | some pose =>
        by_cases hd : ("ar_" ++ toString vm.id) ∈ poiIds obj
        · rw [setPointOfInterest_present env s vm key obj hi hp hd]; trivial
        · cases ht : env.transform (strippedPose vm) "map" with
          | none =>
            rw [setPointOfInterest_throws env s vm key obj pose hi hp hl hd ht]
            exact rfl
          | some g =>
            rw [setPointOfInterest_attach env s vm key obj pose g hi hp hl hd ht]
            trivial

theorem markSeen_fault (s : State) (vm : AlvarVisibleMarker) (hs : Linked s) :
    (markSeen s vm).2 = none := by
  unfold markSeen
  cases hi : s.ids_map_ vm.main_id with
  | none => rfl
  | some key =>
    cases hp : s.percepts_ key with
    | none => exact absurd hp (hs _ _ hi)
    | some obj => simp [setSeenAt, hp]

theorem validLoopBody_guard (env : Env) (s : State) (vm : AlvarVisibleMarker) (hs : Linked s) :
    Linked (validLoopBody env s vm).1 ∧ TransformOnly (validLoopBody env s vm).2 := by
  refine ⟨kept_linked (validLoopBody_kept env s vm) hs, ?_⟩
  unfold validLoopBody
  have hat : TransformOnly (attachPois env s vm).2 := by
    unfold attachPois
    split
    · cases h2 : (setPointOfInterest env s vm).2 with
      | none => rw [andThen_none _ _ h2]; trivial
      | some f =>
        rw [andThen_some _ _ f h2]
        have := setPointOfInterest_fault env s vm hs
        rw [h2] at this
        exact this
    · trivial
  cases h2 : (attachPois env s vm).2 with
  | none =>
    rw [andThen_none _ _ h2, markSeen_fault _ vm (kept_linked (attachPois_kept env s vm) hs)]
    trivial
  | some f =>
    rw [andThen_some _ _ f h2]
    rw [h2] at hat
    exact hat

theorem seenLoopBody_guard (s : State) (vm : AlvarVisibleMarker) (hs : Linked s) :
    Linked (seenLoopBody s vm).1 ∧ TransformOnly (seenLoopBody s vm).2 := by
  refine ⟨kept_linked (seenLoopBody_kept s vm) hs, ?_⟩
  unfold seenLoopBody
  cases hi : s.ids_map_ vm.main_id with
  | none => trivial
  | some key =>
    cases hp : s.percepts_ key with
    | none => exact absurd hp (hs _ _ hi)
    | some obj =>
      simp only [hp]
      split
      · rw [setSeenAt_eq s key obj hp]; trivial
      · trivial

theorem processCycle_guard (env : Env) (s : State) (markers : List AlvarMarker)
    (vms valid : List AlvarVisibleMarker) (rejected : Finset Nat) (hs : Linked s) :
    Linked (processCycle env s markers vms valid rejected).1 ∧
      TransformOnly (processCycle env s markers vms valid rejected).2 := by
  unfold processCycle
  refine andThen_guard Linked TransformOnly ?_ ?_
  · have := forEach_guard (updateEntitiesBody env rejected) Linked (fun f => f = none) rfl
      (fun s a h => updateEntitiesBody_linked env rejected s a h) markers s hs
    refine ⟨this.1, ?_⟩
    unfold updateEntities
    rw [this.2]
    trivial
  · intro s1 h1
    refine andThen_guard Linked TransformOnly ?_ ?_
    · exact forEach_guard (validLoopBody env) Linked TransformOnly trivial
        (validLoopBody_guard env) valid _ (kept_linked (setAllPoiUnseen_kept s1) h1)
    · intro s3 h3
      exact forEach_guard seenLoopBody Linked TransformOnly trivial seenLoopBody_guard vms s3 h3

theorem validationPass_fault (env : Env) (agent : Agent) (thr : ℚ) (head : Head)
    (hh : agent.head = some head) :
    ∀ (vms : List AlvarVisibleMarker) (acc : List AlvarVisibleMarker × Finset Nat) (f : Fault),
      validationPass env agent thr vms acc = Except.error f → f = Fault.transformException := by
  intro vms
  induction vms with
  | nil => intro acc f h; simp [validationPass] at h
  | cons a as ih =>
    intro acc f h
    cases hg : env.transform (strippedPose a) "map" with
    | none =>
      simp only [validationPass, hg, Except.error.injEq] at h
      exact h.symm
    | some g =>
      simp only [validationPass, hg, isInValidArea, hh] at h
      split at h
      · exact ih _ f h
      · exact ih _ f h

/-- From a state whose id mapping leads to percepts only, a cycle ends with a
boolean or with the transform exception, and leaves such a state. -/
theorem perceptionCallback_guard (env : Env) (s : State) (markers : List AlvarMarker)
    (vms : List AlvarVisibleMarker) (hs : Linked s) :
    Linked (perceptionCallback env s markers vms).1 ∧
      ∀ f, (perceptionCallback env s markers vms).2 = Outcome.threw f →
        f = Fault.transformException := by
  constructor
  · rcases perceptionCallback_cases env s markers vms with h | ⟨_, valid, rejected, _, _, _, h⟩
    · rw [h]; exact hs
    · rw [h]; exact (processCycle_guard env s markers vms valid rejected hs).1
  · intro f h
    unfold perceptionCallback at h
    cases ha : env.robot_agent_ with
    | none => simp [ha] at h
    | some agent =>
      cases hh : headHasMoved agent with
      | true => simp [ha, hh] at h
      | false =>
        obtain ⟨head, hhead⟩ := headHasMoved_false_head agent hh
        simp only [ha, hh, Bool.false_eq_true, if_false] at h
        cases hv : validationPass env agent s.min_track_err_ vms ([], ∅) with
        | error f0 =>
          simp only [hv, Outcome.threw.injEq] at h
          rw [← h]
          exact validationPass_fault env agent _ head hhead vms _ f0 hv
        | ok r =>
          obtain ⟨valid, rejected⟩ := r
          simp only [hv] at h
          have hg := processCycle_guard env s markers vms valid rejected hs
          rcases hp : processCycle env s markers vms valid rejected with ⟨s4, _ | f0⟩
          · simp [hp] at h
          · rw [hp] at hg
            simp only [hp, Outcome.threw.injEq] at h
            rw [← h]
            exact hg.2

theorem runCycles_linked (cs : List Cycle) : ∀ s : State, Linked s → Linked (runCycles s cs) := by
  induction cs with
  | nil => intro s hs; exact hs
  | cons c cs ih =>
    intro s hs
    exact ih _ (perceptionCallback_guard c.env s c.markers c.visible_markers hs).1

/-- Starting from empty tables, no cycle ever ends in a failed table lookup or
in undefined behaviour: the transform exception is the one failure that
leaves `perceptionCallback`. -/
theorem only_transform_exception_escapes (thr : ℚ) (cs : List Cycle) (env : Env)
    (markers : List AlvarMarker) (vms : List AlvarVisibleMarker) (f : Fault)
    (h : (perceptionCallback env (runCycles (State.empty thr) cs) markers vms).2 =
      Outcome.threw f) : f = Fault.transformException :=
  (perceptionCallback_guard env _ markers vms
    (runCycles_linked cs _ (by intro n k h; simp [State.empty, State.init] at h))).2 f h

/-- The transform of the first observation failing, the cycle ends with the
transform exception in the state it started from. -/
theorem first_transform_failure (env : Env) (s : State) (markers : List AlvarMarker)
    (vm : AlvarVisibleMarker) (rest : List AlvarVisibleMarker) (agent : Agent)
    (ha : env.robot_agent_ = some agent) (hh : headHasMoved agent = false)
    (ht : env.transform (strippedPose vm) "map" = none) :
    perceptionCallback env s markers (vm :: rest) =
      (s, Outcome.threw Fault.transformException) := by
  simp [perceptionCallback, ha, hh, validationPass, ht]

/-- In the concrete scene: marker 5 is resolved while its `lookupTransform`
fails, so that `"cube_A"` exists without a pose when its valid observation 3
arrives; sub-id 3 is recorded in `visible_markers_with_pois_` although no
point of interest was attached, and the next cycle, in which the percept is
located and the observation is valid again, attaches none either. -/
theorem unlocated_sighting_blocks_poi :
    (demoUnlocated.percepts_ "cube_A").map (fun o => (o.pose, poiIds o)) = some (none, []) ∧
      3 ∈ demoUnlocated.visible_markers_with_pois_ ∧
      observationValid demoEnv demoAgent demoUnlocated.min_track_err_
        (demoVisible 5 3 (1 / 10)) = true ∧
      (perceptionCallback demoEnv demoUnlocated [demoMarker 5]
        [demoVisible 5 3 (1 / 10)]).2 = Outcome.returned true ∧
      ((perceptionCallback demoEnv demoUnlocated [demoMarker 5]
        [demoVisible 5 3 (1 / 10)]).1.percepts_ "cube_A").map
          (fun o => (o.pose, poiIds o)) = some (some demoPose, []) := by
  decide!

/-! ## The claims -/

/-- C1: whatever the way a cycle ends, if the pose of a percept after the
cycle differs from its pose before, then the cycle passed its precondition and
its validation pass, and the raw detections contain a marker whose numeric id
maps to that percept, is not on the blacklist (before and after the cycle), is
not in the set of parent ids rejected this cycle, and whose `lookupTransform`
succeeded. Equivalently, the loop of `updateEntities` leaves every pose
unchanged at a detection that is blacklisted, rejected this cycle, or whose
`lookupTransform` fails. -/
theorem pose_changes_only_by_update (env : Env) (s : State) (markers : List AlvarMarker)
    (vms : List AlvarVisibleMarker) (key : String) :
    (poseOf (perceptionCallback env s markers vms).1 key ≠ poseOf s key →
      ∃ agent valid rejected, env.robot_agent_ = some agent ∧
        validationPass env agent s.min_track_err_ vms ([], ∅) = Except.ok (valid, rejected) ∧
        ∃ m ∈ markers,
          (perceptionCallback env s markers vms).1.ids_map_ m.id = some key ∧
          m.id ∉ s.blacklist_ids_ ∧
          m.id ∉ (perceptionCallback env s markers vms).1.blacklist_ids_ ∧
          m.id ∉ rejected ∧
          (env.lookupTransform "map" (stripSlash m.header.frame_id) m.header.stamp).isSome
            = true) ∧
    (∀ (rejected : Finset Nat) (m : AlvarMarker),
      (m.id ∈ s.blacklist_ids_ ∨ m.id ∈ rejected ∨
        env.lookupTransform "map" (stripSlash m.header.frame_id) m.header.stamp = none) →
      poseOf (updateEntitiesBody env rejected s m).1 key = poseOf s key) := by
  constructor
  · intro h
    cases ha : env.robot_agent_ with
    | none => simp [perceptionCallback, ha] at h
    | some agent =>
      cases hh : headHasMoved agent with
      | true => simp [perceptionCallback, ha, hh] at h
      | false =>
        cases hv : validationPass env agent s.min_track_err_ vms ([], ∅) with
        | error f => simp [perceptionCallback, ha, hh, hv] at h
        | ok r =>
          obtain ⟨valid, rejected⟩ := r
          have hst := perceptionCallback_state env s markers vms agent valid rejected ha hh hv
          have hk := processCycle_kept env s markers vms valid rejected
          rw [hst] at h ⊢
          rw [kept_poseOf hk key] at h
          obtain ⟨m, hm, c1, c2, c3, c4, c5⟩ :=
            forEach_updateEntitiesBody_pose env rejected key markers s h
          refine ⟨agent, valid, rejected, rfl, hv, m, hm, ?_, c2, ?_, c4, c5⟩
          · rw [hk.ids]; exact c1
          · rw [hk.black]; exact c3
  · intro rejected m hm
    by_contra hne
    obtain ⟨_, b2, _, b4, b5⟩ := updateEntitiesBody_pose env rejected s m key hne
    rcases hm with hm | hm | hm
    · exact b2 hm
    · exact b4 hm
    · rw [hm] at b5; cases b5

/-- Witness of C1: in the concrete scene the first cycle gives `"cube_A"` a
pose, and the detection of marker 5 accounts for it. -/
theorem pose_changes_only_by_update_witness :
    ∃ agent valid rejected, demoEnv.robot_agent_ = some agent ∧
      validationPass demoEnv agent demoState.min_track_err_ [demoVisible 5 3 (1 / 10)] ([], ∅)
        = Except.ok (valid, rejected) ∧
      ∃ m ∈ [demoMarker 5],
        (perceptionCallback demoEnv demoState [demoMarker 5]
          [demoVisible 5 3 (1 / 10)]).1.ids_map_ m.id = some "cube_A" ∧
        m.id ∉ demoState.blacklist_ids_ ∧
        m.id ∉ (perceptionCallback demoEnv demoState [demoMarker 5]
          [demoVisible 5 3 (1 / 10)]).1.blacklist_ids_ ∧
        m.id ∉ rejected ∧
        (demoEnv.lookupTransform "map" (stripSlash m.header.frame_id) m.header.stamp).isSome
          = true :=
  (pose_changes_only_by_update demoEnv demoState [demoMarker 5] [demoVisible 5 3 (1 / 10)]
    "cube_A").1 (by decide!)

/-- C2: when the ontology query for a numeric marker id returns no match,
`createNewEntity` returns false, adds the id to the blacklist, creates no
percept and adds no id mapping; a detection with a blacklisted id leaves the
state as it is; and after any sequence of later cycles the id is still on the
blacklist (the blacklist only grows), no ontology query was issued for it and
its entry in the id mapping is what it was. -/
theorem unresolved_id_blacklisted_for_good (env : Env) (s : State) (marker : AlvarMarker)
    (h : env.getFrom "hasArId" ("real#" ++ toString marker.id) = []) :
    (createNewEntity env s marker).2 = false ∧
    (createNewEntity env s marker).1.blacklist_ids_ = insert marker.id s.blacklist_ids_ ∧
    (createNewEntity env s marker).1.percepts_ = s.percepts_ ∧
    (createNewEntity env s marker).1.ids_map_ = s.ids_map_ ∧
    (∀ (env1 : Env) (rejected : Finset Nat) (s1 : State) (m : AlvarMarker),
      m.id ∈ s1.blacklist_ids_ → updateEntitiesBody env1 rejected s1 m = (s1, none)) ∧
    ∀ cs : List Cycle,
      marker.id ∈ (runCycles (createNewEntity env s marker).1 cs).blacklist_ids_ ∧
      (createNewEntity env s marker).1.blacklist_ids_ ⊆
        (runCycles (createNewEntity env s marker).1 cs).blacklist_ids_ ∧
      (runCycles (createNewEntity env s marker).1 cs).ids_map_ marker.id =
        s.ids_map_ marker.id ∧
      ∃ new, (runCycles (createNewEntity env s marker).1 cs).onto_log =
          (createNewEntity env s marker).1.onto_log ++ new ∧ marker.id ∉ new := by
  have hc := createNewEntity_nil env s marker h
  refine ⟨by rw [hc], by rw [hc], by rw [hc], by rw [hc], ?_, ?_⟩
  · intro env1 rejected s1 m hm
    simp [updateEntitiesBody, hm]
  · intro cs
    have hg := runCycles_grows cs (createNewEntity env s marker).1
    have hin : marker.id ∈ (createNewEntity env s marker).1.blacklist_ids_ := by
      rw [hc]; simp
    refine ⟨hg.black hin, hg.black, ?_, ?_⟩
    · have hids : (createNewEntity env s marker).1.ids_map_ = s.ids_map_ := by rw [hc]
      rw [← hids]
      cases hi : (createNewEntity env s marker).1.ids_map_ marker.id with
      | some k => exact hg.ids _ _ hi
      | none =>
        by_contra hne
        exact hg.newIds _ hi hne hin
    · obtain ⟨new, e, p⟩ := hg.log
      exact ⟨new, e, fun hn => p _ hn hin⟩

/-- Witness of C2: marker 7 is unknown to the ontology of the concrete scene;
once blacklisted it stays so through two cycles that present it again, with no
query and no mapping for it. -/
theorem unresolved_id_blacklisted_for_good_witness :
    7 ∈ (runCycles (createNewEntity demoEnv demoState (demoMarker 7)).1
          [⟨demoEnv, [demoMarker 7], []⟩, ⟨demoEnv, [demoMarker 7, demoMarker 5], []⟩]).blacklist_ids_ ∧
      (runCycles (createNewEntity demoEnv demoState (demoMarker 7)).1
          [⟨demoEnv, [demoMarker 7], []⟩, ⟨demoEnv, [demoMarker 7, demoMarker 5], []⟩]).ids_map_ 7 =
        none ∧
      ∃ new, (runCycles (createNewEntity demoEnv demoState (demoMarker 7)).1
          [⟨demoEnv, [demoMarker 7], []⟩, ⟨demoEnv, [demoMarker 7, demoMarker 5], []⟩]).onto_log =
          (createNewEntity demoEnv demoState (demoMarker 7)).1.onto_log ++ new ∧ 7 ∉ new :=
  have h := (unresolved_id_blacklisted_for_good demoEnv demoState (demoMarker 7)
    (by decide)).2.2.2.2.2
      [⟨demoEnv, [demoMarker 7], []⟩, ⟨demoEnv, [demoMarker 7, demoMarker 5], []⟩]
  ⟨h.1, h.2.2.1, h.2.2.2⟩

/-- Counterexample to C3 as stated, in the concrete scene. First: `"cube_A"`
was seen in the previous cycle (counter 0) and marker 5, which maps to it, is
among the raw detections, but no observation comes with it; the cycle returns
true and the percept is not marked seen. Second: `"cube_A"` has counter 1,
marker 5 is among the raw detections and its observation is rejected for its
confidence; the cycle returns true and the percept is not marked seen (its
counter is 2). -/
theorem hysteresis_as_stated_fails :
    ((demoAttached.percepts_ "cube_A").map Object.getNbFrameUnseen = some 0 ∧
      demoMarker 5 ∈ [demoMarker 5] ∧
      (perceptionCallback demoEnv demoAttached [demoMarker 5] []).1.ids_map_ (demoMarker 5).id =
        some "cube_A" ∧
      (perceptionCallback demoEnv demoAttached [demoMarker 5] []).2 = Outcome.returned true ∧
      ((perceptionCallback demoEnv demoAttached [demoMarker 5] []).1.percepts_ "cube_A").map
        Object.hasBeenSeen = some false) ∧
    ((demoUnseenOnce.percepts_ "cube_A").map Object.getNbFrameUnseen = some 1 ∧
      demoMarker 5 ∈ [demoMarker 5] ∧
      (perceptionCallback demoEnv demoUnseenOnce [demoMarker 5]
        [demoVisible 5 3 (25 / 100)]).1.ids_map_ (demoMarker 5).id = some "cube_A" ∧
      observationValid demoEnv demoAgent demoUnseenOnce.min_track_err_
        (demoVisible 5 3 (25 / 100)) = false ∧
      (perceptionCallback demoEnv demoUnseenOnce [demoMarker 5]
        [demoVisible 5 3 (25 / 100)]).2 = Outcome.returned true ∧
      ((perceptionCallback demoEnv demoUnseenOnce [demoMarker 5]
        [demoVisible 5 3 (25 / 100)]).1.percepts_ "cube_A").map Object.hasBeenSeen =
        some false ∧
      ((perceptionCallback demoEnv demoUnseenOnce [demoMarker 5]
        [demoVisible 5 3 (25 / 100)]).1.percepts_ "cube_A").map Object.getNbFrameUnseen =
        some 2) := by
  decide!

/-- C3, amended: for every cycle that returns true and every percept whose
frames-unseen counter is 0 before the cycle, if the parent id of some
visible-marker observation of that cycle maps to that percept, then the
percept is marked seen when `perceptionCallback` returns, whether the
observation was valid or rejected. -/
theorem seen_hysteresis (env : Env) (s : State) (markers : List AlvarMarker)
    (vms : List AlvarVisibleMarker) (key : String) (obj : Object) (vm : AlvarVisibleMarker)
    (hret : (perceptionCallback env s markers vms).2 = Outcome.returned true)
    (hobj : s.percepts_ key = some obj) (hcnt : obj.getNbFrameUnseen = 0)
    (hvm : vm ∈ vms)
    (hmap : (perceptionCallback env s markers vms).1.ids_map_ vm.main_id = some key) :
    ∃ obj1, (perceptionCallback env s markers vms).1.percepts_ key = some obj1 ∧
      obj1.hasBeenSeen = true := by
  obtain ⟨agent, valid, rejected, _, _, _, hp⟩ :=
    perceptionCallback_returned_true env s markers vms hret
  obtain ⟨s1, s3, h1, h3, h4⟩ := processCycle_done env s _ markers vms valid rejected hp
  have hu := updateEntities_step env s markers rejected
  rw [h1] at hu
  obtain ⟨o1, e1, q1⟩ := (hu key).1 obj hobj
  obtain ⟨o2, e2, q2⟩ := setAllPoiUnseen_counter s1 key o1 e1
  have hv := validLoop_step env (setAllPoiUnseen s1) valid
  rw [h3] at hv
  obtain ⟨o3, e3, q3⟩ := (hv key).1 o2 e2
  have hk4 := seenLoop_kept s3 vms
  rw [h4] at hk4
  have hlt : o3.nb_frame_unseen < 2 := by
    have h0 : o1.nb_frame_unseen = 0 := by rw [q1.1]; exact hcnt
    rcases q3.1 with q | q
    · rw [q, q2, h0]; decide
    · rw [q]; decide
  obtain ⟨o4, e4, q4⟩ := seenLoop_marks vm key vms s3 _ h4 hvm
    (by rw [← hk4.ids]; exact hmap) o3 e3 hlt
  exact ⟨o4, e4, by simp [Object.hasBeenSeen, q4]⟩

/-- Witness of C3, amended: in the concrete scene `"cube_A"` has counter 0,
the observation of its marker is rejected for its confidence, and the percept
is marked seen at the end of the cycle. -/
theorem seen_hysteresis_witness :
    observationValid demoEnv demoAgent demoAttached.min_track_err_
        (demoVisible 5 3 (25 / 100)) = false ∧
      ∃ obj1, (perceptionCallback demoEnv demoAttached [demoMarker 5]
          [demoVisible 5 3 (25 / 100)]).1.percepts_ "cube_A" = some obj1 ∧
        obj1.hasBeenSeen = true :=
  ⟨by decide!,
   seen_hysteresis demoEnv demoAttached [demoMarker 5] [demoVisible 5 3 (25 / 100)] "cube_A"
      demoObjectWithPoi (demoVisible 5 3 (25 / 100)) (by decide!) (by decide!) (by decide!)
      (by decide!) (by decide!)⟩

/-- C4: in the validation pass, run where `perceptionCallback` runs it (the
head is there, located and still) and every transform succeeding, an
observation is appended to the valid list if and only if its transformed pose
is inside the field of view and its confidence is strictly below the
threshold, so the valid list is the input filtered, in input order; a parent
id is in the rejected set if and only if some observation with that parent is
not valid. The threshold set by `closeInitialization` is 0.2. An observation
whose confidence is equal to or above the threshold (0.25 against 0.20) is
rejected whatever the field-of-view test answers. -/
theorem validationPass_spec (env : Env) (agent : Agent) (thr : ℚ)
    (vms : List AlvarVisibleMarker) (hh : headHasMoved agent = false)
    (ht : ∀ vm ∈ vms, env.transform (strippedPose vm) "map" ≠ none) :
    (∃ rejected, validationPass env agent thr vms ([], ∅) =
        Except.ok (vms.filter (observationValid env agent thr), rejected) ∧
      (∀ n, n ∈ rejected ↔ ∃ vm ∈ vms, observationValid env agent thr vm = false ∧ vm.main_id = n) ∧
      ∀ vm ∈ vms, thr ≤ vm.confidence →
        vm ∉ vms.filter (observationValid env agent thr) ∧ vm.main_id ∈ rejected) ∧
    (∀ vm ∈ vms, observationValid env agent thr vm = true ↔
      ∃ head marker_pose, agent.head = some head ∧
        env.transform (strippedPose vm) "map" = some marker_pose ∧
        agent.fieldOfViewHasIn (env.transformIn marker_pose.pose head.pose) = true ∧
        vm.confidence < thr) ∧
    (∀ s : State, (closeInitialization s).1.min_track_err_ = 2 / 10) ∧
    (∀ (s : State) (vm : AlvarVisibleMarker), vm.confidence = 25 / 100 →
      observationValid env agent (closeInitialization s).1.min_track_err_ vm = false) := by
  obtain ⟨head, hhead⟩ := headHasMoved_false_head agent hh
  have hconf : ∀ (t : ℚ) (vm : AlvarVisibleMarker), t ≤ vm.confidence →
      observationValid env agent t vm = false := by
    intro t vm hle
    unfold observationValid
    split
    · simp [not_lt.mpr hle]
    · rfl
  refine ⟨?_, ?_, fun _ => rfl, ?_⟩
  · obtain ⟨rejected, e, p⟩ := validationPass_acc env agent thr head hhead vms ([], ∅) ht
    refine ⟨rejected, by simpa using e, ?_, ?_⟩
    · intro n; rw [p n]; simp
    · intro vm hvm hle
      refine ⟨?_, ?_⟩
      · intro hmem
        have := (List.mem_filter.mp hmem).2
        rw [hconf thr vm hle] at this
        cases this
      · exact (p _).mpr (Or.inr ⟨vm, hvm, hconf thr vm hle, rfl⟩)
  · intro vm hvm
    unfold observationValid
    rw [hhead]
    cases hg : env.transform (strippedPose vm) "map" with
    | none => exact absurd hg (ht vm hvm)
    | some g => simp
  · intro s vm hvm
    apply hconf
    rw [hvm]
    simp only [closeInitialization]
    norm_num

/-- Witness of C4: in the concrete scene, of three observations with
confidence 0.1, 0.25 and 0.15 the first and the third are valid, in that order,
and the parent of the second is rejected. -/
theorem validationPass_spec_witness :
    ∃ rejected, validationPass demoEnv demoAgent (2 / 10)
        [demoVisible 5 3 (1 / 10), demoVisible 6 4 (25 / 100), demoVisible 5 8 (15 / 100)] ([], ∅) =
        Except.ok ([demoVisible 5 3 (1 / 10), demoVisible 5 8 (15 / 100)], rejected) ∧
      6 ∈ rejected ∧ 5 ∉ rejected := by
  obtain ⟨rejected, e, p, _⟩ := (validationPass_spec demoEnv demoAgent (2 / 10)
    [demoVisible 5 3 (1 / 10), demoVisible 6 4 (25 / 100), demoVisible 5 8 (15 / 100)]
    (by decide) (by decide)).1
  refine ⟨rejected, ?_, ?_, ?_⟩
  · rw [e]
    have : [demoVisible 5 3 (1 / 10), demoVisible 6 4 (25 / 100),
        demoVisible 5 8 (15 / 100)].filter (observationValid demoEnv demoAgent (2 / 10)) =
        [demoVisible 5 3 (1 / 10), demoVisible 5 8 (15 / 100)] := by decide!
    rw [this]
  · exact (p 6).mpr ⟨demoVisible 6 4 (25 / 100), by simp, by decide!, rfl⟩
  · intro h6
    obtain ⟨vm, hvm, hval, hid⟩ := (p 5).mp h6
    simp only [List.mem_cons, List.mem_singleton, List.not_mem_nil, or_false] at hvm
    rcases hvm with h | h | h
    · subst h; exact absurd hval (by decide!)
    · subst h; exact absurd hid (by decide)
    · subst h; exact absurd hval (by decide!)

/-- C5: points of interest are created at most once per observation sub-id:
starting from empty tables, after any sequence of cycles no percept holds more
than one point of interest named `"ar_<sub-id>"`, whatever the sub-id; and
`setPointOfInterest` called for an observation whose `"ar_<sub-id>"` is
already on the percept leaves the whole state, hence the points of interest of
the percept, unchanged. -/
theorem poi_created_at_most_once :
    (∀ (thr : ℚ) (cs : List Cycle) (k : String) (o : Object) (n : Nat),
      (runCycles (State.empty thr) cs).percepts_ k = some o →
      (poiIds o).count ("ar_" ++ toString n) ≤ 1) ∧
    (∀ (env : Env) (s : State) (vm : AlvarVisibleMarker) (key : String) (o : Object),
      s.ids_map_ vm.main_id = some key → s.percepts_ key = some o →
      ("ar_" ++ toString vm.id) ∈ poiIds o →
      setPointOfInterest env s vm = (s, none)) := by
  constructor
  · intro thr cs k o n h
    exact List.nodup_iff_count_le_one.mp
      (runCycles_poisDistinct cs _ (empty_poisDistinct thr) k o h) _
  · intro env s vm key o hi hp hd
    exact setPointOfInterest_present env s vm key o hi hp hd

/-- Witness of C5: in the concrete scene, after the same observation was
delivered in two cycles `"cube_A"` holds one `"ar_3"`, and `setPointOfInterest`
for that observation leaves the state as it is. -/
theorem poi_created_at_most_once_witness :
    (poiIds demoObjectWithPoi).count ("ar_" ++ toString 3) ≤ 1 ∧
      setPointOfInterest demoEnv demoAttached (demoVisible 5 3 (1 / 10)) = (demoAttached, none) :=
  ⟨poi_created_at_most_once.1 (2 / 10)
      [⟨demoEnv, [demoMarker 5], [demoVisible 5 3 (1 / 10)]⟩,
       ⟨demoEnv, [demoMarker 5], [demoVisible 5 3 (1 / 10)]⟩] "cube_A" demoObjectWithPoi 3
      (by decide!),
   poi_created_at_most_once.2 demoEnv demoAttached (demoVisible 5 3 (1 / 10)) "cube_A"
      demoObjectWithPoi (by decide!) (by decide!) (by decide!)⟩

/-- C6: `perceptionCallback` returns false and leaves the whole state (percept
table, id mapping, blacklist, sub-ids with points of interest) unchanged
whenever no robot agent is bound, the agent has no head, the head is not
located or the head reports that it has moved; in every other case in which it
returns, it returns true. -/
theorem perceptionCallback_precondition (env : Env) (s : State) (markers : List AlvarMarker)
    (vms : List AlvarVisibleMarker) :
    (preconditionNotMet env = true →
      perceptionCallback env s markers vms = (s, Outcome.returned false)) ∧
    (preconditionNotMet env = false →
      ∀ b, (perceptionCallback env s markers vms).2 = Outcome.returned b → b = true) := by
  constructor
  · intro h
    cases ha : env.robot_agent_ with
    | none => simp [perceptionCallback, ha]
    | some agent =>
      have := (headHasMoved_eq env agent ha).trans h
      simp [perceptionCallback, ha, this]
  · intro h b hb
    cases ha : env.robot_agent_ with
    | none => simp [preconditionNotMet, ha] at h
    | some agent =>
      have hm : headHasMoved agent = false := (headHasMoved_eq env agent ha).trans h
      unfold perceptionCallback at hb
      simp only [ha, hm, Bool.false_eq_true, if_false] at hb
      cases hv : validationPass env agent s.min_track_err_ vms ([], ∅) with
      | error f => simp [hv] at hb
      | ok r =>
        obtain ⟨valid, rejected⟩ := r
        simp only [hv] at hb
        rcases hp : processCycle env s markers vms valid rejected with ⟨s4, _ | f⟩
        · simp only [hp, Outcome.returned.injEq] at hb
          exact hb.symm
        · simp [hp] at hb

/-- Witness of C6: without a robot agent the cycle returns false in the state
it started from, and in the concrete scene a returned value is true. -/
theorem perceptionCallback_precondition_witness :
    perceptionCallback demoEnvNoAgent demoState [demoMarker 5] [demoVisible 5 3 (1 / 10)] =
        (demoState, Outcome.returned false) ∧
      ∀ b, (perceptionCallback demoEnv demoState [demoMarker 5] [demoVisible 5 3 (1 / 10)]).2 =
        Outcome.returned b → b = true :=
  ⟨(perceptionCallback_precondition demoEnvNoAgent demoState [demoMarker 5]
      [demoVisible 5 3 (1 / 10)]).1 (by decide),
   (perceptionCallback_precondition demoEnv demoState [demoMarker 5]
      [demoVisible 5 3 (1 / 10)]).2 (by decide)⟩

/-- C7: starting from empty tables, after any sequence of `perceptionCallback`
cycles no numeric marker id is both on the blacklist and a key of the id
mapping: every id is in exactly one of blacklist, id mapping, or neither. -/
theorem blacklist_mapping_disjoint (thr : ℚ) (cs : List Cycle) (n : Nat) :
    ¬ (n ∈ (runCycles (State.empty thr) cs).blacklist_ids_ ∧
        (runCycles (State.empty thr) cs).ids_map_ n ≠ none) ∧
    ((n ∈ (runCycles (State.empty thr) cs).blacklist_ids_ ∧
        (runCycles (State.empty thr) cs).ids_map_ n = none) ∨
     (n ∉ (runCycles (State.empty thr) cs).blacklist_ids_ ∧
        (runCycles (State.empty thr) cs).ids_map_ n ≠ none) ∨
     (n ∉ (runCycles (State.empty thr) cs).blacklist_ids_ ∧
        (runCycles (State.empty thr) cs).ids_map_ n = none)) := by
  have hg := runCycles_grows cs (State.empty thr)
  have hd : n ∈ (runCycles (State.empty thr) cs).blacklist_ids_ →
      (runCycles (State.empty thr) cs).ids_map_ n = none := fun hn =>
    (hg.fresh n hn (by simp [State.empty, State.init])).2
  refine ⟨fun h => h.2 (hd h.1), ?_⟩
  by_cases hn : n ∈ (runCycles (State.empty thr) cs).blacklist_ids_
  · exact Or.inl ⟨hn, hd hn⟩
  · by_cases hi : (runCycles (State.empty thr) cs).ids_map_ n = none
    · exact Or.inr (Or.inr ⟨hn, hi⟩)
    · exact Or.inr (Or.inl ⟨hn, hi⟩)

/-- The failing input of C8, in the concrete scene: the transform of the one
observation fails, `perceptionCallback` ends with the transform exception
instead of returning a boolean, and nothing of the cycle is processed (marker
5 stays unresolved), although the same detection alone is processed. -/
theorem transform_failure_escapes :
    (perceptionCallback demoEnvNoTransform demoState [demoMarker 5]
        [demoVisible 5 3 (1 / 10)]).2 = Outcome.threw Fault.transformException ∧
      (perceptionCallback demoEnvNoTransform demoState [demoMarker 5]
        [demoVisible 5 3 (1 / 10)]).1.ids_map_ 5 = none ∧
      (perceptionCallback demoEnvNoTransform demoState [demoMarker 5] []).2 =
        Outcome.returned true ∧
      (perceptionCallback demoEnvNoTransform demoState [demoMarker 5] []).1.ids_map_ 5 =
        some "cube_A" := by
  decide!

/-- C9: for an observation of size `s` centimetres whose parent id maps to a
percept, `setPointOfInterest` attaches nothing when the percept has no known
pose; when the percept is located, holds no point of interest `"ar_<sub-id>"`
and the transform succeeds, it appends exactly one point of interest, named
`"ar_<sub-id>"`, holding exactly five points: the marker pose expressed in the
frame of the percept composed with, in order, the poses of translation
`(0,0,0)`, `(-h,-h,0)`, `(h,-h,0)`, `(h,h,0)`, `(-h,h,0)` and rotation
quaternion `(0,0,0,1)`, where `h = s / 200`; every other percept and every
other table is left as it is. For `s = 10` the point of interest attached has
the offsets `0.05`. -/
theorem setPointOfInterest_five_points (env : Env) (s : State) (vm : AlvarVisibleMarker)
    (key : String) (obj : Object) (hi : s.ids_map_ vm.main_id = some key)
    (hp : s.percepts_ key = some obj) :
    (obj.pose = none → setPointOfInterest env s vm = (s, none)) ∧
    (∀ (pose : Pose) (g : PoseStamped), obj.pose = some pose →
      ("ar_" ++ toString vm.id) ∉ poiIds obj →
      env.transform (strippedPose vm) "map" = some g →
      ∃ s1, setPointOfInterest env s vm = (s1, none) ∧
        s1.percepts_ key = some
          { id := obj.id, pose := obj.pose, shape := obj.shape, mass := obj.mass,
            nb_frame_unseen := obj.nb_frame_unseen,
            points_of_interest := obj.points_of_interest ++
              [{ id := "ar_" ++ toString vm.id
                 points :=
                   [env.mul (env.transformIn g.pose pose)
                      { x := 0, y := 0, z := 0, qx := 0, qy := 0, qz := 0, qw := 1 },
                    env.mul (env.transformIn g.pose pose)
                      { x := -(vm.size / 200), y := -(vm.size / 200), z := 0,
                        qx := 0, qy := 0, qz := 0, qw := 1 },
                    env.mul (env.transformIn g.pose pose)
                      { x := vm.size / 200, y := -(vm.size / 200), z := 0,
                        qx := 0, qy := 0, qz := 0, qw := 1 },
                    env.mul (env.transformIn g.pose pose)
                      { x := vm.size / 200, y := vm.size / 200, z := 0,
                        qx := 0, qy := 0, qz := 0, qw := 1 },
                    env.mul (env.transformIn g.pose pose)
                      { x := -(vm.size / 200), y := vm.size / 200, z := 0,
                        qx := 0, qy := 0, qz := 0, qw := 1 }]
                 seen := false }] } ∧
        (∀ k, k ≠ key → s1.percepts_ k = s.percepts_ k) ∧
        s1.ids_map_ = s.ids_map_ ∧ s1.blacklist_ids_ = s.blacklist_ids_ ∧
        s1.visible_markers_with_pois_ = s.visible_markers_with_pois_) ∧
    (∀ (pose : Pose) (g : PoseStamped), obj.pose = some pose →
      ("ar_" ++ toString vm.id) ∉ poiIds obj →
      env.transform (strippedPose vm) "map" = some g → vm.size = 10 →
      ((setPointOfInterest env s vm).1.percepts_ key).map
          (fun o => o.points_of_interest.drop obj.points_of_interest.length) = some
        [{ id := "ar_" ++ toString vm.id
           points :=
             [env.mul (env.transformIn g.pose pose)
                { x := 0, y := 0, z := 0, qx := 0, qy := 0, qz := 0, qw := 1 },
              env.mul (env.transformIn g.pose pose)
                { x := -(5 / 100), y := -(5 / 100), z := 0, qx := 0, qy := 0, qz := 0, qw := 1 },
              env.mul (env.transformIn g.pose pose)
                { x := 5 / 100, y := -(5 / 100), z := 0, qx := 0, qy := 0, qz := 0, qw := 1 },
              env.mul (env.transformIn g.pose pose)
                { x := 5 / 100, y := 5 / 100, z := 0, qx := 0, qy := 0, qz := 0, qw := 1 },
              env.mul (env.transformIn g.pose pose)
                { x := -(5 / 100), y := 5 / 100, z := 0, qx := 0, qy := 0, qz := 0, qw := 1 }]
           seen := false }]) := by
  have hh : vm.size / 100 / 2 = vm.size / 200 := by ring
  refine ⟨fun hl => setPointOfInterest_unlocated env s vm key obj hi hp hl, ?_, ?_⟩
  · intro pose g hl hd ht
    refine ⟨_, setPointOfInterest_attach env s vm key obj pose g hi hp hl hd ht, ?_,
      fun k hk => setAt_other _ _ _ _ hk, rfl, rfl, rfl⟩
    simp only [setAt_same, Object.addPointOfInterest, buildPoi, subPois, Pose.ofMsg,
      Pose.ofTranslation, hh, List.map_cons, List.map_nil]
  · intro pose g hl hd ht h10
    have h5 : vm.size / 100 / 2 = 5 / 100 := by rw [h10]; norm_num
    rw [setPointOfInterest_attach env s vm key obj pose g hi hp hl hd ht]
    simp only [setAt_same, Object.addPointOfInterest, buildPoi, subPois, Pose.ofMsg,
      Pose.ofTranslation, h5, List.map_cons, List.map_nil, Option.map_some',
      List.drop_left]

/-- Witness of C9: in the concrete scene, where `operator*` composes poses as
rigid motions and the marker pose relative to the percept is `(1, 2, 3)`,
not rotated, an observation of size 10 attaches to the located percept
`"cube_A"` the one point of interest `"ar_3"`: its five points are the centre
and the corners 0.05 away from it in `x` and `y`, none of them rotated. -/
theorem setPointOfInterest_five_points_witness :
    ∃ s1, setPointOfInterest demoEnv demoLocated (demoVisible 5 3 (1 / 10)) = (s1, none) ∧
      (s1.percepts_ "cube_A").map (fun o => o.points_of_interest) =
        some [{ id := "ar_3"
                points :=
                  [{ x := 1, y := 2, z := 3, qx := 0, qy := 0, qz := 0, qw := 1 },
                   { x := 19 / 20, y := 39 / 20, z := 3, qx := 0, qy := 0, qz := 0, qw := 1 },
                   { x := 21 / 20, y := 39 / 20, z := 3, qx := 0, qy := 0, qz := 0, qw := 1 },
                   { x := 21 / 20, y := 41 / 20, z := 3, qx := 0, qy := 0, qz := 0, qw := 1 },
                   { x := 19 / 20, y := 41 / 20, z := 3, qx := 0, qy := 0, qz := 0, qw := 1 }]
                seen := false }] := by
  obtain ⟨s1, h1, h2, _⟩ := (setPointOfInterest_five_points demoEnv demoLocated
    (demoVisible 5 3 (1 / 10)) "cube_A" demoObject (by decide!) (by decide!)).2.1
    demoPose (strippedPose (demoVisible 5 3 (1 / 10))) (by decide!) (by decide!) (by decide!)
  refine ⟨s1, h1, ?_⟩
  rw [h2]
  decide!

/-- Counterexample to C10 as stated, in the concrete scene: observation 3 was
sighted in an earlier cycle under parent 5 (`"cube_A"`); in this cycle it is
valid under parent 6, which maps to the located percept `"cube_B"`, no point
of interest `"ar_3"` was ever created on `"cube_B"`, the cycle returns true,
and `"cube_B"` holds no point of interest. -/
theorem poi_not_attached_under_other_parent :
    observationValid demoEnv demoAgent demoAttached.min_track_err_
        (demoVisible 6 3 (1 / 10)) = true ∧
      (perceptionCallback demoEnv demoAttached [demoMarker 6]
        [demoVisible 6 3 (1 / 10)]).2 = Outcome.returned true ∧
      (perceptionCallback demoEnv demoAttached [demoMarker 6]
        [demoVisible 6 3 (1 / 10)]).1.ids_map_ 6 = some "cube_B" ∧
      demoAttached.percepts_ "cube_B" = none ∧
      ((perceptionCallback demoEnv demoAttached [demoMarker 6]
        [demoVisible 6 3 (1 / 10)]).1.percepts_ "cube_B").map
          (fun o => (o.pose, poiIds o)) = some (some demoPose, []) := by
  decide!

/-- C10, amended: for every cycle that returns true and every valid
observation whose parent id maps to a percept with a known pose: if the sub-id
is not yet in `visible_markers_with_pois_` when the cycle starts, and the
valid observations of the cycle with the same sub-id do not lead to another
percept, then the percept holds a point of interest `"ar_<sub-id>"` when
`perceptionCallback` returns. -/
theorem first_handling_attaches_poi (env : Env) (s : State) (markers : List AlvarMarker)
    (vms : List AlvarVisibleMarker) (agent : Agent) (vm : AlvarVisibleMarker) (key : String)
    (obj1 : Object) (ha : env.robot_agent_ = some agent)
    (hret : (perceptionCallback env s markers vms).2 = Outcome.returned true)
    (hvm : vm ∈ vms) (hval : observationValid env agent s.min_track_err_ vm = true)
    (hmap : (perceptionCallback env s markers vms).1.ids_map_ vm.main_id = some key)
    (hobj : (perceptionCallback env s markers vms).1.percepts_ key = some obj1)
    (hloc : obj1.pose ≠ none)
    (hnew : vm.id ∉ s.visible_markers_with_pois_)
    (hsame : ∀ a ∈ vms, observationValid env agent s.min_track_err_ a = true → a.id = vm.id →
      (perceptionCallback env s markers vms).1.ids_map_ a.main_id = none ∨
      (perceptionCallback env s markers vms).1.ids_map_ a.main_id = some key) :
    ("ar_" ++ toString vm.id) ∈ poiIds obj1 := by
  obtain ⟨agent1, valid, rejected, ha1, hh, hv, hp⟩ :=
    perceptionCallback_returned_true env s markers vms hret
  rw [ha] at ha1
  cases ha1
  have hvalid := validationPass_valid env agent s.min_track_err_ vms valid rejected hh hv
  obtain ⟨s1, s3, h1, h3, h4⟩ := processCycle_done env s _ markers vms valid rejected hp
  have hk3 := validLoop_kept env (setAllPoiUnseen s1) valid
  rw [h3] at hk3
  have hk4 := seenLoop_kept s3 vms
  rw [h4] at hk4
  have hk2 := setAllPoiUnseen_kept s1
  have hkall := kept_trans hk3 hk4
  have hids : (perceptionCallback env s markers vms).1.ids_map_ =
      (setAllPoiUnseen s1).ids_map_ := hkall.ids
  have hg := updateEntities_grows env s markers rejected
  rw [h1] at hg
  have hloc2 : ∃ o, (setAllPoiUnseen s1).percepts_ key = some o ∧ o.pose ≠ none := by
    have hpk := hkall.perc key
    rw [hobj] at hpk
    cases h2 : (setAllPoiUnseen s1).percepts_ key with
    | none => rw [h2] at hpk; simp only [PerceptKept] at hpk
    | some o =>
      rw [h2] at hpk
      simp only [PerceptKept] at hpk
      exact ⟨o, rfl, by rw [← hpk.1]; exact hloc⟩
  have hnew2 : vm.id ∉ (setAllPoiUnseen s1).visible_markers_with_pois_ := by
    intro hin
    have hsub : s1.visible_markers_with_pois_ = s.visible_markers_with_pois_ := by
      have := updateEntities_set env s markers rejected
      rw [h1] at this
      exact this
    exact hnew (by rw [← hsub]; exact hin)
  obtain ⟨o3, e3, q3⟩ := validLoop_attaches env vm key valid (setAllPoiUnseen s1) s3 h3
    (by rw [hvalid]; exact List.mem_filter.mpr ⟨hvm, hval⟩)
    (by rw [← hids]; exact hmap) hloc2
    (by
      intro a hmem hid
      rw [hvalid] at hmem
      obtain ⟨m1, m2⟩ := List.mem_filter.mp hmem
      rw [← hids]
      exact hsame a m1 m2 hid)
    hnew2
  obtain ⟨o4, e4, q4⟩ := kept_has_poi hk4 key _ ⟨o3, e3, q3⟩
  rw [hobj] at e4
  cases e4
  exact q4

/-- Witness of C10, amended: in the concrete scene `"cube_A"` is located and
sub-id 3 has not been handled; the cycle that brings its valid observation
leaves `"ar_3"` on the percept. -/
theorem first_handling_attaches_poi_witness :
    3 ∉ demoLocated.visible_markers_with_pois_ ∧
      (perceptionCallback demoEnv demoLocated [demoMarker 5]
        [demoVisible 5 3 (1 / 10)]).1.percepts_ "cube_A" = some demoObjectWithPoi ∧
      ("ar_" ++ toString (demoVisible 5 3 (1 / 10)).id) ∈ poiIds demoObjectWithPoi :=
  ⟨by decide!, by decide!,
   first_handling_attaches_poi demoEnv demoLocated [demoMarker 5] [demoVisible 5 3 (1 / 10)]
      demoAgent (demoVisible 5 3 (1 / 10)) "cube_A" demoObjectWithPoi rfl (by decide!)
      (by decide!) (by decide!) (by decide!) (by decide!) (by decide!) (by decide!)
      (by
        intro a ha _ _
        rw [List.mem_singleton] at ha
        subst ha
        exact Or.inr (by decide!))⟩

end owds
